import Mathlib

/-!
# NoAI: feed reconciliation, like toggles and editor canvas sizing

A shallow embedding of the two source files of the NoAI prototype,
`src/NoAI.jsx` (namespace `NoAIjsx`) and `src/NoAI.js` (namespace `NoAIjs`),
followed by the theorems that settle the specification's claims about them.

Conventions of the embedding.

* A JavaScript `Date` is its number of milliseconds since the epoch, an `Int`.
  `Date.now()` is the parameter `now`.
* `Array.prototype.sort` with a consistent comparator returns the stable sorted
  arrangement of its input; `jsSort` computes that arrangement.
* A React state variable holding `null` or a value is an `Option`.
* A store write issued by a handler is returned by the handler (`none` when the
  handler returns without writing).
-/

/-- The array returned by `Array.prototype.sort(cmp)`: the sort is stable and, for a
consistent comparator, its result is the unique stable arrangement in which `a` stays
before `b` whenever `cmp a b ≤ 0`.  Computed here by a stable insertion sort. -/
def jsSort {α : Type} (cmp : α → α → Int) (l : List α) : List α :=
  l.insertionSort (fun a b => cmp a b ≤ 0)

/-- `String.prototype.startsWith`, on the characters of the two strings. -/
def startsWith (s pre : String) : Bool :=
  pre.toList.isPrefixOf s.toList

/-- The UTF-16 code units of a character: one unit for a character of the Basic
Multilingual Plane, a surrogate pair for any other. -/
def utf16OfChar (c : Char) : List Nat :=
  if c.toNat < 65536 then [c.toNat]
  else [55296 + (c.toNat - 65536) / 1024, 56320 + (c.toNat - 65536) % 1024]

/-- A JavaScript string value as the string methods see it: its sequence of UTF-16 code
units, which may end in half of a surrogate pair. -/
structure JsString where
  units : List Nat
  deriving DecidableEq, Repr

/-- The JavaScript string value of a string of characters. -/
def JsString.ofString (s : String) : JsString :=
  ⟨s.data.flatMap utf16OfChar⟩

/-- The `length` of a JavaScript string: its number of code units. -/
def JsString.length (s : JsString) : Nat :=
  s.units.length

/-- `String.prototype.substring(start, end)` with non-negative integer arguments: each
is clamped to the length, the smaller of the two is the start, and the result is the
code units from the start up to the end. -/
def JsString.substring (s : JsString) (start stop : Nat) : JsString :=
  let a := min start s.length
  let b := min stop s.length
  ⟨(s.units.take (max a b)).drop (min a b)⟩

/-- The Firestore handle held in the state `db` once Firebase is initialised. -/
structure Firestore where
  projectId : String
  deriving DecidableEq, Repr

/-- A value written to the `likes` field of a post document by `updateDoc`: a plain
array, or one of the Firestore transforms `arrayUnion(uid)` and `arrayRemove(uid)`. -/
inductive LikesValue where
  | array (likes : List String)
  | arrayUnion (uid : String)
  | arrayRemove (uid : String)
  deriving DecidableEq, Repr

/-- The stored `likes` array after `updateDoc` has written a `LikesValue` over the stored
array `stored`, as the Firestore documentation defines the two transforms: `arrayUnion`
adds the element only when it is not yet present, `arrayRemove` removes every instance
of it, and a plain array replaces the field. -/
def LikesValue.apply (v : LikesValue) (stored : List String) : List String :=
  match v with
  | .array likes => likes
  | .arrayUnion uid => if stored.contains uid then stored else stored ++ [uid]
  | .arrayRemove uid => stored.filter (fun id => id != uid)

/-- The call `updateDoc(doc(db, postsPath, postId), { likes: value })`. -/
structure UpdateDoc where
  postId : String
  likes : LikesValue
  deriving DecidableEq, Repr

namespace NoAIjsx

/-- The `timestamp` field of a post, as the feed reads it through
`post.timestamp?.toDate`. -/
inductive Timestamp where
  /-- `undefined` or `null`: the server timestamp of a fresh post is still pending. -/
  | absent
  /-- A value that has no `toDate` member. -/
  | noToDate
  /-- A Firestore `Timestamp`; `toDate()` is the date `ms`. -/
  | firestore (ms : Int)
  /-- The seed form `{ toDate: () => new Date(Date.now() - agoMs) }`. -/
  | relative (agoMs : Int)
  deriving DecidableEq, Repr

/-- A post document as the feed holds it (`{ id: doc.id, ...doc.data() }`). -/
structure Post where
  id : String
  authorId : String
  authorName : String
  authorAvatar : String
  imageUrl : String
  caption : String
  timestamp : Timestamp
  /-- The `likes` array; `none` when the document has no such field. -/
  likes : Option (List String)
  deriving DecidableEq, Repr

/-- The signed-in Firebase user, as far as the component reads it. -/
structure User where
  uid : String
  displayName : Option String
  photoURL : Option String
  deriving DecidableEq, Repr

/-- The seed posts of `NoAI.jsx`. -/
def MOCK_POSTS : List Post :=
  [ { id := "mock_1", authorId := "user_maya", authorName := "Maya Creative",
      authorAvatar := "https://placehold.co/100x100/FFB7B2/ffffff?text=M",
      imageUrl := "https://placehold.co/600x400/FFB7B2/ffffff?text=Sketching+in+Park",
      caption := "Sunday morning sketches. No AI, just ink.",
      timestamp := .relative 3600000, likes := some ["user_liam"] },
    { id := "mock_2", authorId := "user_liam", authorName := "Liam Analog",
      authorAvatar := "https://placehold.co/100x100/B5EAD7/ffffff?text=L",
      imageUrl := "https://placehold.co/600x400/B5EAD7/ffffff?text=Old+Camera",
      caption := "Found this beauty at the flea market.",
      timestamp := .relative 7200000, likes := some [] },
    { id := "mock_3", authorId := "user_sarah", authorName := "Sarah Real",
      authorAvatar := "https://placehold.co/100x100/E2F0CB/ffffff?text=S",
      imageUrl := "https://placehold.co/600x400/E2F0CB/ffffff?text=Coffee+Spill",
      caption := "Oops. Authentic mess.",
      timestamp := .relative 10800000, likes := some ["user_maya", "user_liam"] } ]

/-- The value of `timestamp.toDate()` at current time `now`, when `timestamp?.toDate`
is truthy; `none` when the timestamp is absent or has no `toDate`. -/
def toDate? (now : Int) : Timestamp → Option Int
  | .absent => none
  | .noToDate => none
  | .firestore ms => some ms
  | .relative agoMs => some (now - agoMs)

/-- A post whose timestamp is resolved: `post.timestamp?.toDate` is truthy. -/
def resolved (p : Post) : Bool :=
  match p.timestamp with
  | .absent => false
  | .noToDate => false
  | .firestore _ => true
  | .relative _ => true

/-- The `timeA` / `timeB` of the comparator:
`a.timestamp?.toDate ? a.timestamp.toDate() : new Date(0)`. -/
def sortTime (now : Int) (p : Post) : Int :=
  match toDate? now p.timestamp with
  | some t => t
  | none => 0

/-- The comparator of `combinedFeed`: `timeB - timeA`. -/
def feedCompare (now : Int) (a b : Post) : Int :=
  sortTime now b - sortTime now a

/-- The memo `combinedFeed`: `[...realPosts, ...MOCK_POSTS].sort(...)`. -/
def combinedFeed (now : Int) (realPosts : List Post) : List Post :=
  jsSort (feedCompare now) (realPosts ++ MOCK_POSTS)

/-- The state `feedType`, which only ever holds the strings 'global' or 'following'. -/
inductive FeedType where
  | global
  | following
  deriving DecidableEq, Repr

/-- The filter predicate of `displayPosts`:
`following.includes(p.authorId) || (user && p.authorId === user.uid)`. -/
def keepInFollowing (following : List String) (user : Option User) (p : Post) : Bool :=
  following.contains p.authorId ||
    (match user with
     | some u => p.authorId == u.uid
     | none => false)

/-- The memo `displayPosts`. -/
def displayPosts (feedType : FeedType) (combinedFeed : List Post)
    (following : List String) (user : Option User) : List Post :=
  match feedType with
  | .global => combinedFeed
  | .following => combinedFeed.filter (keepInFollowing following user)

/-- The render-time test `post.id.startsWith('mock_')`. -/
def isMock (post : Post) : Bool :=
  startsWith post.id "mock_"

/-- The `disabled` attribute of the like button: `isMock && true`. -/
def likeButtonDisabled (post : Post) : Bool :=
  isMock post && true

/-- The `isLiked` of `toggleLike`: `post.likes && post.likes.includes(user.uid)`. -/
def isLiked (post : Post) (user : User) : Bool :=
  match post.likes with
  | some likes => likes.contains user.uid
  | none => false

/-- The value `toggleLike` writes to the `likes` field:
`isLiked ? arrayRemove(user.uid) : arrayUnion(user.uid)`. -/
def likesUpdate (post : Post) (user : User) : LikesValue :=
  if isLiked post user then .arrayRemove user.uid else .arrayUnion user.uid

/-- The handler `toggleLike`: the store write it issues, `none` when it issues none. -/
def toggleLike (db : Option Firestore) (user : Option User) (post : Post) :
    Option UpdateDoc :=
  if !startsWith post.id "mock_" then
    match db, user with
    | some _, some u => some { postId := post.id, likes := likesUpdate post u }
    | _, _ => none
  else none

/-- The document `handlePost` passes to `addDoc`; the `timestamp` field is the
`serverTimestamp()` sentinel, so a snapshot shows it absent until the server resolves it. -/
structure NewPost where
  authorId : String
  authorName : String
  authorAvatar : Option String
  imageUrl : String
  caption : String
  likes : List String
  deriving DecidableEq, Repr

/-- The JavaScript `user.displayName || 'Demo User'`. -/
def displayNameOr (displayName : Option String) (fallback : String) : String :=
  match displayName with
  | some n => if n = "" then fallback else n
  | none => fallback

/-- The handler `handlePost`: the document it appends, `none` when it returns early. -/
def handlePost (db : Option Firestore) (user : Option User) (imageDataUrl : String) :
    Option NewPost :=
  match db, user with
  | some _, some u =>
      some { authorId := u.uid, authorName := displayNameOr u.displayName "Demo User",
             authorAvatar := u.photoURL, imageUrl := imageDataUrl,
             caption := "Just captured this #nofilter #noai", likes := [] }
  | _, _ => none

/-- The stored likes of a post created by `handlePost` after the given like toggles, in
order: each toggle is decided on the snapshot `post` its user sees and its transform is
applied to the stored array. -/
def likesAfter (created : NewPost) (toggles : List (Post × User)) : List String :=
  toggles.foldl (fun stored t => (likesUpdate t.1 t.2).apply stored) created.likes

/-! ### Sample inputs -/

/-- A post as `handlePost` has just appended it: the id is assigned by the store and the
server timestamp is still pending. -/
def pendingPost : Post :=
  { id := "k3Jx9QmT2bLw8ZrA5cVd", authorId := "uid_demo", authorName := "Demo User",
    authorAvatar := "https://placehold.co/100x100/333/fff?text=ME",
    imageUrl := "data:image/jpeg;base64,AAAA",
    caption := "Just captured this #nofilter #noai",
    timestamp := .absent, likes := some [] }

/-- A remote post whose server timestamp is resolved. -/
def resolvedPost : Post :=
  { id := "Zq81LmN0pRs2TuV3wXy4", authorId := "uid_other", authorName := "Demo User",
    authorAvatar := "https://placehold.co/100x100/333/fff?text=ME",
    imageUrl := "data:image/jpeg;base64,BBBB",
    caption := "Just captured this #nofilter #noai",
    timestamp := .firestore 1699999000000, likes := some ["uid_demo"] }

/-- Three posts by the authors A, B and C, in this order. -/
def postsABC : List Post :=
  [ { id := "p1", authorId := "A", authorName := "a", authorAvatar := "", imageUrl := "",
      caption := "", timestamp := .firestore 30, likes := some [] },
    { id := "p2", authorId := "B", authorName := "b", authorAvatar := "", imageUrl := "",
      caption := "", timestamp := .firestore 20, likes := some [] },
    { id := "p3", authorId := "C", authorName := "c", authorAvatar := "", imageUrl := "",
      caption := "", timestamp := .firestore 10, likes := some [] } ]

/-- The viewer C. -/
def viewerC : User := { uid := "C", displayName := none, photoURL := none }

/-- A remote post, not one of the seed posts, whose document id begins with `mock_`. -/
def remoteMockIdPost : Post :=
  { id := "mock_9", authorId := "uid_other", authorName := "Demo User",
    authorAvatar := "https://placehold.co/100x100/333/fff?text=ME",
    imageUrl := "data:image/jpeg;base64,CCCC",
    caption := "Just captured this #nofilter #noai",
    timestamp := .firestore 1699999500000, likes := some [] }

/-- A signed-in demo user. -/
def demoUser : User :=
  { uid := "uid_demo", displayName := some "Demo User",
    photoURL := some "https://placehold.co/100x100/333/fff?text=ME" }

/-- A store handle. -/
def demoDb : Firestore := { projectId := "noai-demo" }

end NoAIjsx

namespace NoAIjs

/-- The placeholder images `handlePost` picks from. -/
def PLACEHOLDER_IMAGE_URLS : List String :=
  [ "https://placehold.co/600x400/DCC7C1/9B7D7D?text=Authentic+Moment+1",
    "https://placehold.co/600x600/C8D6B0/7B866B?text=Authentic+Moment+2",
    "https://placehold.co/400x600/A0B9BA/657979?text=Authentic+Moment+3" ]

/-- A post document as the feed of `NoAI.js` holds it; `timestamp` is the resolved date in
milliseconds, `none` while the server timestamp is pending. -/
structure Post where
  id : String
  imageUrl : String
  caption : String
  authorId : String
  timestamp : Option Int
  likes : List String
  deriving DecidableEq, Repr

/-- JavaScript truthiness of the state `userId`: neither `null` nor the empty string. -/
def truthyId (userId : Option String) : Bool :=
  match userId with
  | some u => u != ""
  | none => false

/-- The `isLiked` of `PostCard`: `post.likes.includes(userId)`. -/
def isLiked (likes : List String) (userId : String) : Bool :=
  likes.contains userId

/-- The `newLikes` of `handleLikeToggle`:
`isLiked ? post.likes.filter(id => id !== userId) : [...post.likes, userId]`. -/
def newLikes (likes : List String) (userId : String) : List String :=
  if isLiked likes userId then likes.filter (fun id => id != userId) else likes ++ [userId]

/-- The handler `handleLikeToggle` of `PostCard`: the store write it issues, `none` when
it returns early. -/
def handleLikeToggle (db : Option Firestore) (userId : Option String) (post : Post) :
    Option UpdateDoc :=
  match db, userId with
  | some _, some u =>
      if truthyId (some u) then
        some { postId := post.id, likes := .array (newLikes post.likes u) }
      else none
  | _, _ => none

/-- The document `handlePost` passes to `addDoc`; the `timestamp` field is the
`serverTimestamp()` sentinel, and `authorId` is the value of `userId.substring(0, 8)`
in code units. -/
structure NewPost where
  imageUrl : String
  caption : String
  authorId : JsString
  likes : List String
  deriving DecidableEq, Repr

/-- The handler `handlePost`: the document it appends, `none` when it returns early.
`pick` is the index `Math.floor(Math.random() * PLACEHOLDER_IMAGE_URLS.length)`. -/
def handlePost (db : Option Firestore) (userId : Option String) (postCount : Nat)
    (pick : Fin 3) : Option NewPost :=
  match db, userId with
  | some _, some u =>
      if truthyId (some u) then
        some { imageUrl := PLACEHOLDER_IMAGE_URLS.getD pick.val "",
               caption := "Human-made moment #" ++ toString (postCount + 1),
               authorId := (JsString.ofString u).substring 0 8,
               likes := [] }
      else none
  | _, _ => none

/-- The stored likes of a post created by `handlePost` after like toggles by the given
users, in order, each computed from the likes the previous one stored. -/
def likesAfter (created : NewPost) (users : List String) : List String :=
  users.foldl newLikes created.likes

end NoAIjs

/-! ## JavaScript numbers in the editor's canvas sizing

The sizing code divides and multiplies JavaScript numbers, which are IEEE 754 binary64
values, and assigns the products to `canvas.width` and `canvas.height`, which hold
integers.  The values met here are non-negative and far inside the normal range, so a
number is a pair of a mantissa and an exponent and each operation is the exact rational
result rounded to the nearest value with a 53-bit mantissa, ties to even. -/

/-- A finite non-negative binary64 number, `mant * 2 ^ exp`. -/
structure Dbl where
  mant : Nat
  exp : Int
  deriving DecidableEq, Repr

/-- The integer nearest to `n / d`, the even one of the two when `n / d` is halfway. -/
def roundHalfEven (n d : Nat) : Nat :=
  let q := n / d
  let r := n % d
  if 2 * r < d then q else if d < 2 * r then q + 1 else if q % 2 = 0 then q else q + 1

/-- Halving `n` until it is below 2, at most `fuel` times; the number of halvings. -/
def ilog2Aux : Nat → Nat → Nat
  | 0, _ => 0
  | fuel + 1, n => if n < 2 then 0 else ilog2Aux fuel (n / 2) + 1

/-- The position of the highest set bit of `n`: `2 ^ ilog2 n ≤ n < 2 ^ (ilog2 n + 1)` for
positive `n`. -/
def ilog2 (n : Nat) : Nat := ilog2Aux n n

/-- The exponent `e` with `2 ^ e ≤ n / d < 2 ^ (e + 1)`, for positive `n` and `d`. -/
def binade (n d : Nat) : Int :=
  let e0 : Int := (ilog2 n : Int) - (ilog2 d : Int)
  if 0 ≤ e0 then (if n < d * 2 ^ e0.toNat then e0 - 1 else e0)
  else (if n * 2 ^ (-e0).toNat < d then e0 - 1 else e0)

/-- The binary64 number nearest to the rational `n / d` (round to nearest, ties to even),
for `n / d` zero or in the normal range: the mantissa has 53 bits and the exponent is 52
below the binade of `n / d`. -/
def toDouble (n d : Nat) : Dbl :=
  if n = 0 then ⟨0, 0⟩
  else
    let e := binade n d - 52
    if 0 ≤ e then ⟨roundHalfEven n (d * 2 ^ e.toNat), e⟩
    else ⟨roundHalfEven (n * 2 ^ (-e).toNat) d, e⟩

/-- The JavaScript quotient `a / b` of two integers below `2 ^ 53`, `b` positive. -/
def Dbl.div (a b : Nat) : Dbl := toDouble a b

/-- The JavaScript number that is the integer `a`, for `a` below `2 ^ 53`. -/
def Dbl.ofNat (a : Nat) : Dbl := toDouble a 1

/-- The JavaScript product `a * x` of an integer `a` below `2 ^ 53` and a number `x`. -/
def Dbl.mulNat (a : Nat) (x : Dbl) : Dbl :=
  if 0 ≤ x.exp then toDouble (a * x.mant * 2 ^ x.exp.toNat) 1
  else toDouble (a * x.mant) (2 ^ (-x.exp).toNat)

/-- The integer part of a number. -/
def Dbl.trunc (x : Dbl) : Nat :=
  if 0 ≤ x.exp then x.mant * 2 ^ x.exp.toNat else x.mant / 2 ^ (-x.exp).toNat

/-- The value an `unsigned long` attribute such as `canvas.width` takes when a number is
assigned to it: the integer part of the number, modulo `2 ^ 32`. -/
def toUnsignedLong (x : Dbl) : Nat := x.trunc % 2 ^ 32

/-- The value `canvas.width` or `canvas.height` takes when a number is assigned to it:
the number converted to `unsigned long`, and the attribute's default (300 for the
width, 150 for the height) when that is above 2147483647. -/
def canvasDimension (attributeDefault : Nat) (x : Dbl) : Nat :=
  if toUnsignedLong x > 2147483647 then attributeDefault else toUnsignedLong x

namespace NoAIjsx

/-- The constant `maxWidth` of the canvas initialisation effect and of `handleSave`. -/
def maxWidth : Nat := 800

/-- The `scale` of both places: `img.width > maxWidth ? maxWidth / img.width : 1`. -/
def scale (imgWidth : Nat) : Dbl :=
  if imgWidth > maxWidth then Dbl.div maxWidth imgWidth else Dbl.ofNat 1

/-- The size the canvas initialisation effect gives the editor canvas:
`canvas.width = img.width * scale; canvas.height = img.height * scale`. -/
def initCanvasSize (imgWidth imgHeight : Nat) : Nat × Nat :=
  (canvasDimension 300 (Dbl.mulNat imgWidth (scale imgWidth)),
   canvasDimension 150 (Dbl.mulNat imgHeight (scale imgWidth)))

/-- The size `handleSave` gives its temporary canvas:
`tempCanvas.width = img.width * scale; tempCanvas.height = img.height * scale`. -/
def handleSaveSize (imgWidth imgHeight : Nat) : Nat × Nat :=
  (canvasDimension 300 (Dbl.mulNat imgWidth (scale imgWidth)),
   canvasDimension 150 (Dbl.mulNat imgHeight (scale imgWidth)))

end NoAIjsx

/-! ## The image editor of `NoAI.jsx`

The editor draws on HTML canvases.  A canvas is a grid of pixels; compositing is the
canvas default, source-over.  What the browser computes inside its primitives
(resampling an image to a size, the colour transform of a CSS filter, the pixels a
stroked path covers, JPEG encoding) is not code of this repository and is taken as
given, in a `Renderer`.  Pointer coordinates are JavaScript numbers; the editor's
coordinate arithmetic is written over any number type with the operations it uses. -/

/-- A canvas pixel: premultiplied red, green, blue and alpha, each from 0 to 255. -/
structure Pixel where
  r : Nat
  g : Nat
  b : Nat
  a : Nat
  deriving DecidableEq, Repr

/-- The transparent pixel of a cleared canvas. -/
def Pixel.transparent : Pixel := ⟨0, 0, 0, 0⟩

/-- One channel of source-over compositing on premultiplied 8-bit values:
`s + d * (255 - sa) / 255`, rounded to nearest. -/
def overChannel (s d sa : Nat) : Nat :=
  s + (d * (255 - sa) + 127) / 255

/-- Source-over compositing of the pixel `s` on top of the pixel `d`. -/
def Pixel.over (s d : Pixel) : Pixel :=
  ⟨overChannel s.r d.r s.a, overChannel s.g d.g s.a, overChannel s.b d.b s.a,
   overChannel s.a d.a s.a⟩

/-- The bitmap of a canvas: its size and the pixel at each position. -/
structure Layer where
  width : Nat
  height : Nat
  px : Nat → Nat → Pixel

/-- A canvas right after creation, after its size is set, or after `clearRect` over its
whole area: every pixel transparent. -/
def Layer.blank (w h : Nat) : Layer :=
  ⟨w, h, fun _ _ => Pixel.transparent⟩

/-- A layer with nothing drawn on it: every pixel inside its bounds is transparent. -/
def Layer.isTransparent (l : Layer) : Prop :=
  ∀ x, x < l.width → ∀ y, y < l.height → l.px x y = Pixel.transparent

instance (l : Layer) : Decidable l.isTransparent := by
  unfold Layer.isTransparent
  exact inferInstance

/-- The bitmap `dst` after `src` is drawn on it at offset (0, 0) with no filter:
source-over inside the bounds of `src`, unchanged elsewhere. -/
def drawOver (src dst : Layer) : Layer :=
  { dst with
    px := fun x y =>
      if x < src.width ∧ y < src.height then (src.px x y).over (dst.px x y)
      else dst.px x y }

/-- A decoded source image (`new Image()` with `img.src = imageSrc`, once loaded): its
intrinsic size and pixels. -/
structure SourceImage where
  width : Nat
  height : Nat
  px : Nat → Nat → Pixel

/-- The browser's rendering primitives that the editor calls, taken as given. -/
structure Renderer (α : Type) where
  /-- The pixels of an image resampled to `w` by `h`, as `drawImage(img, 0, 0, w, h)`
  draws them. -/
  resample : SourceImage → (w h : Nat) → Nat → Nat → Pixel
  /-- The colour transform of a CSS filter value other than 'none' (the editor's
  filters are per-pixel colour transforms). -/
  cssFilter : String → Pixel → Pixel
  /-- The bitmap after `ctx.stroke()` strokes the given path on it with the editor's
  round cap, colour #ec4899 and line width 5. -/
  strokePath : List (α × α) → Layer → Layer
  /-- The data URL returned by `toDataURL('image/jpeg', 0.8)`. -/
  toDataURL : Layer → String

/-- A layer as drawn under the context's `filter`: unchanged for 'none', each pixel
transformed otherwise. -/
def applyCtxFilter {α : Type} (R : Renderer α) (filter : String) (src : Layer) : Layer :=
  if filter = "none" then src
  else { src with px := fun x y => R.cssFilter filter (src.px x y) }

/-- A 2D context as far as `handleSave` uses it: its `filter` and its canvas bitmap. -/
structure Ctx2D where
  filter : String
  layer : Layer

/-- The assignment `ctx.filter = value`. -/
def Ctx2D.setFilter (ctx : Ctx2D) (value : String) : Ctx2D :=
  { ctx with filter := value }

/-- The call `ctx.drawImage(src, 0, 0)` (for an image, `src` is the image resampled to
the size given in the call): `src` under the context's filter, composited source-over. -/
def Ctx2D.drawImage {α : Type} (R : Renderer α) (ctx : Ctx2D) (src : Layer) : Ctx2D :=
  { ctx with layer := drawOver (applyCtxFilter R ctx.filter src) ctx.layer }

/-- The name of the exception `drawImage` throws for a source canvas without area. -/
def invalidStateError : String := "InvalidStateError"

/-- The call `ctx.drawImage(canvas, 0, 0)` with a canvas element as its source: it throws
when the source canvas has a width or a height of zero, and draws the canvas otherwise. -/
def Ctx2D.drawCanvas {α : Type} (R : Renderer α) (ctx : Ctx2D) (src : Layer) :
    Except String Ctx2D :=
  if src.width = 0 ∨ src.height = 0 then .error invalidStateError
  else .ok (ctx.drawImage R src)

/-- The rectangle `canvas.getBoundingClientRect()`: where the canvas is displayed. -/
structure Rect (α : Type) where
  left : α
  top : α
  width : α
  height : α

/-- The native event a drawing handler receives: a mouse event with its `offsetX` and
`offsetY`, or a touch event with the client position of its first touch and the
canvas rectangle at that moment. -/
inductive PointerInput (α : Type) where
  | mouse (offsetX offsetY : α)
  | touch (clientX clientY : α) (rect : Rect α)

namespace NoAIjsx

/-- The filter buttons of the editor: name and CSS filter value. -/
def filters : List (String × String) :=
  [ ("Normal", "none"),
    ("Warm", "sepia(40%) contrast(110%) brightness(110%)"),
    ("Cool", "hue-rotate(180deg) sepia(20%)"),
    ("B&W", "grayscale(100%) contrast(120%)"),
    ("Vintage", "sepia(60%) contrast(110%) saturate(80%)") ]

/-- The 2D context kept in `contextRef.current`: its current path, whether `closePath`
has closed it, and whether it is the context of the canvas now mounted (`attached`).
The ref is written only by the canvas initialisation, so after Reset it still holds the
context of the unmounted canvas until the next initialisation. -/
structure PathContext (α : Type) where
  path : List (α × α)
  closed : Bool
  attached : Bool := true

/-- The state of an `ImageEditor`: the React states `imageSrc`, `filter`, `isDrawing`,
the overlay canvas `canvasRef.current` (absent while no image is shown) and the context
`contextRef.current` (absent until the first canvas initialisation). -/
structure EditorState (α : Type) where
  imageSrc : Option SourceImage
  filter : String
  isDrawing : Bool
  canvas : Option Layer
  context : Option (PathContext α)

/-- The state of a freshly mounted editor. -/
def EditorState.initial (α : Type) : EditorState α :=
  { imageSrc := none, filter := "none", isDrawing := false, canvas := none, context := none }

/-- The handler `handleFileChange` with its reader callback: `setImageSrc(result)` when a
file was chosen; the editor then renders the canvas element, 300 by 150 and blank when
newly created. -/
def handleFileChange {α : Type} (s : EditorState α) (file : Option SourceImage) :
    EditorState α :=
  match file with
  | none => s
  | some img =>
      { s with imageSrc := some img,
               canvas := some (match s.canvas with
                               | some c => c
                               | none => Layer.blank 300 150) }

/-- The canvas initialisation effect, once its image has loaded: the canvas takes the
constrained size (which clears it), the context is configured and stored, and
`clearRect` clears the whole canvas. -/
def initCanvas {α : Type} (s : EditorState α) : EditorState α :=
  match s.imageSrc, s.canvas with
  | some img, some _ =>
      { s with canvas := some (Layer.blank (initCanvasSize img.width img.height).1
                                            (initCanvasSize img.width img.height).2),
               context := some { path := [], closed := false } }
  | _, _ => s

/-- Loading an image into the editor: the file is chosen and the canvas initialised. -/
def loadImage {α : Type} (s : EditorState α) (img : SourceImage) : EditorState α :=
  initCanvas (handleFileChange s (some img))

/-- The Reset button: `setImageSrc(null)`; the canvas element is unmounted, and
`contextRef.current` keeps the context of that unmounted canvas. -/
def resetImage {α : Type} (s : EditorState α) : EditorState α :=
  { s with imageSrc := none, canvas := none,
           context := s.context.map (fun ctx => { ctx with attached := false }) }

/-- A filter button: `setFilter(f.value)`. -/
def setFilter {α : Type} (s : EditorState α) (value : String) : EditorState α :=
  { s with filter := value }

/-- The function `getCoordinates`: for a touch event the client position mapped into the
canvas bitmap with `scaleX = canvas.width / rect.width` and
`scaleY = canvas.height / rect.height`; for a mouse event its offsets.  Reading the
rectangle of an absent canvas throws. -/
def getCoordinates {α : Type} [Sub α] [Mul α] [Div α] [NatCast α] (canvas : Option Layer) :
    PointerInput α → Except String (α × α)
  | .touch clientX clientY rect =>
      match canvas with
      | some c =>
          let scaleX : α := (c.width : α) / rect.width
          let scaleY : α := (c.height : α) / rect.height
          .ok ((clientX - rect.left) * scaleX, (clientY - rect.top) * scaleY)
      | none => .error "TypeError: canvasRef.current is null"
  | .mouse offsetX offsetY => .ok (offsetX, offsetY)

/-- The handler `startDrawing`: nothing without a context; otherwise a new path starting
at the event's point, and `isDrawing` set. -/
def startDrawing {α : Type} [Sub α] [Mul α] [Div α] [NatCast α] (s : EditorState α)
    (e : PointerInput α) : Except String (EditorState α) :=
  match s.context with
  | none => .ok s
  | some ctx =>
      match getCoordinates s.canvas e with
      | .error err => .error err
      | .ok p => .ok { s with context := some { ctx with path := [p], closed := false },
                              isDrawing := true }

/-- The handler `draw`: nothing while `isDrawing` is false; otherwise `lineTo` the
event's point and `stroke()` the path, which paints the overlay canvas when the context
is that canvas's own, and an unmounted canvas, which nothing reads, otherwise. -/
def draw {α : Type} [Sub α] [Mul α] [Div α] [NatCast α] (R : Renderer α)
    (s : EditorState α) (e : PointerInput α) : Except String (EditorState α) :=
  if !s.isDrawing then .ok s
  else
    match getCoordinates s.canvas e with
    | .error err => .error err
    | .ok p =>
        match s.context with
        | none => .error "TypeError: contextRef.current is null"
        | some ctx =>
            .ok { s with context := some { ctx with path := ctx.path ++ [p] },
                         canvas := if ctx.attached then
                                     s.canvas.map (R.strokePath (ctx.path ++ [p]))
                                   else s.canvas }

/-- The handler `stopDrawing`: nothing without a context; otherwise the path is closed
and `isDrawing` cleared. -/
def stopDrawing {α : Type} (s : EditorState α) : EditorState α :=
  match s.context with
  | none => s
  | some ctx => { s with context := some { ctx with closed := true }, isDrawing := false }

/-- The canvas `handleSave` composes, once its image has loaded: a temporary canvas of
the constrained size; the image drawn with `ctx.filter = filter` (an image drawn into
a size without area paints nothing); the filter set back to 'none'; the overlay canvas
drawn when there is one, which throws when the overlay canvas has no area.  The result
is `.ok none` when `handleSave` returns at once for want of an image, `.error` when
the callback throws, and the composed canvas otherwise. -/
def handleSaveCanvas {α : Type} (R : Renderer α) (s : EditorState α) :
    Except String (Option Layer) :=
  match s.imageSrc with
  | none => .ok none
  | some img =>
      let w := (handleSaveSize img.width img.height).1
      let h := (handleSaveSize img.width img.height).2
      let ctx0 : Ctx2D := { filter := "none", layer := Layer.blank w h }
      let ctx1 := ctx0.setFilter s.filter
      let ctx2 := ctx1.drawImage R ⟨w, h, R.resample img w h⟩
      let ctx3 := ctx2.setFilter "none"
      match s.canvas with
      | some overlay =>
          match ctx3.drawCanvas R overlay with
          | .ok ctx4 => .ok (some ctx4.layer)
          | .error err => .error err
      | none => .ok (some ctx3.layer)

/-- The handler `handleSave`: the data URL it passes to `onSave` (`.ok none` when it
returns without an image), or the exception that ends it before `onSave` is called. -/
def handleSave {α : Type} (R : Renderer α) (s : EditorState α) :
    Except String (Option String) :=
  match handleSaveCanvas R s with
  | .ok composed => .ok (composed.map R.toDataURL)
  | .error err => .error err

/-- The base image scaled to the constrained size and drawn with the filter on a blank
canvas of that size: the first of the two layers. -/
def filteredBase {α : Type} (R : Renderer α) (img : SourceImage) (filter : String) : Layer :=
  let w := (handleSaveSize img.width img.height).1
  let h := (handleSaveSize img.width img.height).2
  drawOver (applyCtxFilter R filter ⟨w, h, R.resample img w h⟩) (Layer.blank w h)

/-- The base image scaled to the constrained size with the filter applied and nothing
else, encoded as `handleSave` encodes its result: the specification's "apply filter to
base image". -/
def applyFilterOnly {α : Type} (R : Renderer α) (img : SourceImage) (filter : String) :
    String :=
  R.toDataURL (filteredBase R img filter)

end NoAIjsx

/-! ### Sample inputs for the editor -/

namespace NoAIjsx

/-- A source image 1000 wide and 500 high, opaque white. -/
def whiteImage : SourceImage :=
  ⟨1000, 500, fun _ _ => ⟨255, 255, 255, 255⟩⟩

/-- A source image 640 wide and 480 high, opaque black. -/
def blackImage : SourceImage :=
  ⟨640, 480, fun _ _ => ⟨0, 0, 0, 255⟩⟩

/-- A renderer for evaluating the model on examples, with rational coordinates: nearest
-neighbour resampling, a filter that swaps red and blue, a stroke that paints the
pixel at the integer part of each path point opaque pink, and an encoding that names
the size of the bitmap. -/
def sampleRenderer : Renderer ℚ where
  resample := fun img w h x y => img.px (x * img.width / w) (y * img.height / h)
  cssFilter := fun _ p => ⟨p.b, p.g, p.r, p.a⟩
  strokePath := fun path l =>
    { l with
      px := fun x y =>
        if path.any (fun p => decide (p.1.floor.toNat = x ∧ p.2.floor.toNat = y)) then
          ⟨236, 72, 153, 255⟩
        else l.px x y }
  toDataURL := fun l => "data:image/jpeg;" ++ toString l.width ++ "x" ++ toString l.height

/-- An editor in which the 1000 by 500 image is loaded and nothing is drawn. -/
def loadedEditor : EditorState ℚ :=
  loadImage (EditorState.initial ℚ) whiteImage

/-- A source image 2000 wide and 1 high, opaque white. -/
def thinImage : SourceImage :=
  ⟨2000, 1, fun _ _ => ⟨255, 255, 255, 255⟩⟩

/-- An editor in which the 2000 by 1 image is loaded and nothing is drawn. -/
def thinEditor : EditorState ℚ :=
  loadImage (EditorState.initial ℚ) thinImage

/-- The opaque pink of the editor's strokes, #ec4899. -/
def strokePink : Pixel := ⟨236, 72, 153, 255⟩

/-- The overlay of the loaded editor after a stroke from (5, 5) to (6, 6), drawn by the
sample renderer. -/
def strokedOverlay : Layer :=
  sampleRenderer.strokePath [(5, 5), (6, 6)] (Layer.blank 800 400)

/-- An editor in which the 1000 by 500 image is loaded, a stroke from (5, 5) to (6, 6)
is drawn and the filter 'B&W' is chosen. -/
def strokedEditor : EditorState ℚ :=
  { imageSrc := some whiteImage, filter := "grayscale(100%) contrast(120%)",
    isDrawing := false, canvas := some strokedOverlay,
    context := some { path := [(5, 5), (6, 6)], closed := true } }

/-- A canvas 800 by 400 displayed 400 wide and 100 high at client position (10, 20). -/
def sampleRect : Rect ℚ := ⟨10, 20, 400, 100⟩

end NoAIjsx

/-! ## Application state, handlers as state transitions, and what is shown -/

/-- The Firebase Auth handle held in the state `auth` once Firebase is initialised. -/
structure Auth where
  projectId : String
  deriving DecidableEq, Repr

namespace NoAIjsx

/-- The state `view`, which only ever holds 'login', 'feed', 'editor' or 'people'. -/
inductive View where
  | login
  | feed
  | editor
  | people
  deriving DecidableEq, Repr

/-- The React state of `App` in `NoAI.jsx`. -/
structure AppState where
  db : Option Firestore
  auth : Option Auth
  user : Option User
  view : View
  realPosts : List Post
  following : List String
  feedType : FeedType
  isLoading : Bool
  deriving DecidableEq, Repr

/-- The state of `App` when it mounts; `saved` is the follow list read from local
storage under 'noai_following' (the empty list when nothing is stored). -/
def AppState.initial (saved : List String) : AppState :=
  { db := none, auth := none, user := none, view := .login, realPosts := [],
    following := saved, feedType := .global, isLoading := true }

/-- A write `App` sends to the post store. -/
inductive StoreWrite where
  | addDoc (post : NewPost)
  | updateDoc (update : UpdateDoc)
  deriving DecidableEq, Repr

/-- The callback given to `onAuthStateChanged`.  It is created once, by the effect that
runs on mount, so the `view` it tests is the mount-time value 'login' and a signed-in
user always leads to `setView('feed')`. -/
def onAuthStateChanged (s : AppState) (u : Option User) : AppState :=
  match u with
  | some usr => { s with user := some usr, view := .feed, isLoading := false }
  | none => { s with view := .login, isLoading := false }

/-- The snapshot callback of the posts subscription: `setRealPosts(fetchedPosts)`. -/
def onSnapshotNext (s : AppState) (fetchedPosts : List Post) : AppState :=
  { s with realPosts := fetchedPosts }

/-- A failure reported by the posts subscription: `onSnapshot` is given no error
callback, so no state changes. -/
def onSnapshotError (s : AppState) : AppState := s

/-- The merged feed of a state, the memo `combinedFeed` over `realPosts`. -/
def feedOf (now : Int) (s : AppState) : List Post :=
  combinedFeed now s.realPosts

/-- The handler `handlePost` as a transition: the new state and the writes sent.
`addDocOk` tells whether `addDoc` succeeded; when it throws, the error is caught and
logged and no state changes. -/
def handlePostStep (s : AppState) (imageDataUrl : String) (addDocOk : Bool) :
    AppState × List StoreWrite :=
  match handlePost s.db s.user imageDataUrl with
  | none => (s, [])
  | some np =>
      if addDocOk then ({ s with view := .feed, feedType := .global }, [.addDoc np])
      else (s, [.addDoc np])

/-- The update of `toggleFollow`:
`prev.includes(dummyId) ? prev.filter(id => id !== dummyId) : [...prev, dummyId]`. -/
def toggleFollow (prev : List String) (dummyId : String) : List String :=
  if prev.contains dummyId then prev.filter (fun id => id != dummyId) else prev ++ [dummyId]

/-- The handler `toggleFollow` as a transition: it sets `following` and sends no write
to the post store (the follow list is persisted in local storage by an effect). -/
def toggleFollowStep (s : AppState) (dummyId : String) : AppState × List StoreWrite :=
  ({ s with following := toggleFollow s.following dummyId }, [])

/-- The handler `toggleLike` as a transition: no state changes; the write, if any. -/
def toggleLikeStep (s : AppState) (post : Post) : AppState × List StoreWrite :=
  (s, match toggleLike s.db s.user post with
      | some u => [.updateDoc u]
      | none => [])

/-- What `App` shows. -/
inductive Screen where
  /-- The text "Loading NoAI...". -/
  | loading
  /-- The `LoginScreen`. -/
  | login
  /-- The `ImageEditor`. -/
  | editor
  /-- The Community list. -/
  | people
  /-- The feed with its list of posts. -/
  | feed (posts : List Post)
  /-- Rendering throws: `user.uid` is read while `user` is null. -/
  | renderError
  deriving DecidableEq, Repr

/-- The render of `App`: the loading text while `isLoading`, the login screen while
`view` is 'login', otherwise the screen of the view.  In the feed each post is rendered
with `isLiked = post.likes && post.likes.includes(user.uid)`, which reads `user.uid`
for every post that has a `likes` field. -/
def render (s : AppState) (now : Int) : Screen :=
  if s.isLoading then .loading
  else
    match s.view with
    | .login => .login
    | .editor => .editor
    | .people => .people
    | .feed =>
        let posts := displayPosts s.feedType (combinedFeed now s.realPosts) s.following s.user
        match s.user with
        | some _ => .feed posts
        | none => if posts.any (fun p => p.likes.isSome) then .renderError else .feed posts

/-- The state right after a sign-in event on a freshly mounted app with a store. -/
def signedInState : AppState :=
  { (onAuthStateChanged (AppState.initial []) (some demoUser)) with db := some demoDb }

/-- The posts P1 at t = 10 and P2 at t = 20 of the delivery scenario. -/
def postP1 : Post :=
  { id := "P1", authorId := "uid_other", authorName := "Demo User", authorAvatar := "",
    imageUrl := "", caption := "", timestamp := .firestore 10, likes := some [] }

/-- The post P2 at t = 20. -/
def postP2 : Post :=
  { id := "P2", authorId := "uid_other", authorName := "Demo User", authorAvatar := "",
    imageUrl := "", caption := "", timestamp := .firestore 20, likes := some [] }

end NoAIjsx

namespace NoAIjs

/-- The React state of `App` in `NoAI.js`. -/
structure AppState where
  db : Option Firestore
  auth : Option Auth
  userId : Option String
  isAuthReady : Bool
  postCount : Nat
  deriving DecidableEq, Repr

/-- The state of `App` when it mounts. -/
def AppState.initial : AppState :=
  { db := none, auth := none, userId := none, isAuthReady := false, postCount := 0 }

/-- The React state of `Feed`. -/
structure FeedState where
  posts : List Post
  loading : Bool
  deriving DecidableEq, Repr

/-- The state of `Feed` when it mounts. -/
def FeedState.initial : FeedState :=
  { posts := [], loading := true }

/-- The snapshot callback of `Feed`: `setPosts(newPosts); setLoading(false)`. -/
def onSnapshotNext (_fs : FeedState) (newPosts : List Post) : FeedState :=
  { posts := newPosts, loading := false }

/-- The error callback of `Feed`: the error is logged and `setLoading(false)`. -/
def onSnapshotError (fs : FeedState) : FeedState :=
  { fs with loading := false }

/-- The handler `handlePost` as a transition: the new state and the documents appended.
When the guard passes, `setPostCount(prev => prev + 1)` runs before `addDoc`. -/
def handlePostStep (s : AppState) (pick : Fin 3) : AppState × List NewPost :=
  match handlePost s.db s.userId s.postCount pick with
  | none => (s, [])
  | some np => ({ s with postCount := s.postCount + 1 }, [np])

/-- The handler `handleLikeToggle` as a transition: no state changes; the write, if any. -/
def handleLikeToggleStep (s : AppState) (post : Post) : AppState × List UpdateDoc :=
  (s, match handleLikeToggle s.db s.userId post with
      | some u => [u]
      | none => [])

/-- What `Feed` shows. -/
inductive FeedScreen where
  /-- The text "Awaiting authentication...". -/
  | awaitingAuth
  /-- The text "Loading authentic moments...". -/
  | loading
  /-- The text "The feed is empty." -/
  | empty
  /-- The list of post cards. -/
  | list (posts : List Post)
  deriving DecidableEq, Repr

/-- The render of `Feed`. -/
def renderFeed (userId : Option String) (fs : FeedState) : FeedScreen :=
  if !truthyId userId then .awaitingAuth
  else if fs.loading then .loading
  else if fs.posts.length = 0 then .empty
  else .list fs.posts

/-- A post of the `NoAI.js` feed. -/
def samplePost : Post :=
  { id := "Qw8ErTy2UiOp4AsDf6Gh",
    imageUrl := "https://placehold.co/600x400/DCC7C1/9B7D7D?text=Authentic+Moment+1",
    caption := "Human-made moment #1", authorId := "Xk2mP9qR",
    timestamp := some 1699999000000, likes := [] }

/-- A Firebase user id, 28 characters long. -/
def sampleUid : String := "Xk2mP9qRs7TuVw3yZa1bCd4eFg5h"

/-- A user id of eight characters and nine code units: the first character lies outside
the Basic Multilingual Plane. -/
def astralUid : String := "😀abcdefg"

end NoAIjs

/-! ## Sessions of `NoAI.jsx`: events and reachable states -/

namespace NoAIjsx

/-- The handler `handleSave` as a transition of the editor: it calls no state setter and
draws only on its own temporary canvas, reading the overlay canvas as a source, so the
editor state stays and the data URL, if any, goes to `onSave`. -/
def handleSaveStep {α : Type} (R : Renderer α) (s : EditorState α) :
    EditorState α × Except String (Option String) :=
  (s, handleSave R s)

/-- The main screen (header, the screen of the view, navigation) is rendered: `App` is
neither loading nor in the view 'login'. -/
def mainShown (s : AppState) : Bool :=
  !s.isLoading && s.view != .login

/-- What can happen to a mounted `App`. -/
inductive AppEvent where
  /-- The initialisation effect has stored the store and auth handles. -/
  | firebaseReady (db : Firestore) (auth : Auth)
  /-- The auth listener fires, with the signed-in user or with none. -/
  | authStateChanged (u : Option User)
  /-- The posts subscription delivers a snapshot. -/
  | snapshot (fetchedPosts : List Post)
  /-- A click on one of the main screen's `setView` controls (logo, compose, close,
  cancel, find people, navigation bar), which set 'feed', 'editor' or 'people'. -/
  | setViewClicked (v : View)
  /-- A click on a feed toggle. -/
  | setFeedTypeClicked (t : FeedType)
  /-- A click on a follow button. -/
  | followClicked (dummyId : String)
  /-- The editor calls `onSave`, that is `handlePost`. -/
  | save (imageDataUrl : String)
  /-- The `addDoc` awaited by an earlier `handlePost` settles, successfully or not. -/
  | addDocSettled (ok : Bool)
  deriving DecidableEq, Repr

/-- A running `App`: its React state and the number of `handlePost` calls that are
awaiting their `addDoc`. -/
structure Session where
  app : AppState
  inFlight : Nat
  deriving DecidableEq, Repr

/-- The session of a freshly mounted `App`. -/
def Session.initial (saved : List String) : Session :=
  { app := AppState.initial saved, inFlight := 0 }

/-- One event.  Clicks reach only controls that are rendered, so they need the main
screen; the subscription exists only with a store and a user; `handlePost` passes its
guard only with a store and a user, and what follows its `await` runs when `addDoc`
settles. -/
def Session.step (σ : Session) : AppEvent → Session
  | .firebaseReady db auth =>
      { σ with app := { σ.app with db := some db, auth := some auth } }
  | .authStateChanged u =>
      { σ with app := onAuthStateChanged σ.app u }
  | .snapshot fetchedPosts =>
      if σ.app.db.isSome && σ.app.user.isSome then
        { σ with app := onSnapshotNext σ.app fetchedPosts }
      else σ
  | .setViewClicked v =>
      if mainShown σ.app && v != .login then { σ with app := { σ.app with view := v } }
      else σ
  | .setFeedTypeClicked t =>
      if mainShown σ.app then { σ with app := { σ.app with feedType := t } } else σ
  | .followClicked dummyId =>
      if mainShown σ.app then { σ with app := (toggleFollowStep σ.app dummyId).1 } else σ
  | .save imageDataUrl =>
      match handlePost σ.app.db σ.app.user imageDataUrl with
      | some _ => { σ with inFlight := σ.inFlight + 1 }
      | none => σ
  | .addDocSettled ok =>
      if σ.inFlight = 0 then σ
      else if ok then
        { app := { σ.app with view := .feed, feedType := .global },
          inFlight := σ.inFlight - 1 }
      else { σ with inFlight := σ.inFlight - 1 }

/-- The session after a sequence of events, from mount. -/
def Session.run (saved : List String) (events : List AppEvent) : Session :=
  events.foldl Session.step (Session.initial saved)

/-- A session in which Firebase is ready and the auth listener reports that nobody is
signed in. -/
def signedOutEvents : List AppEvent :=
  [ .firebaseReady demoDb { projectId := "noai-demo" },
    .authStateChanged none ]

/-- A session in which a user signs in, opens the editor, saves, signs out, and the
post is then stored. -/
def sampleEvents : List AppEvent :=
  [ .firebaseReady demoDb { projectId := "noai-demo" },
    .authStateChanged (some demoUser),
    .snapshot [resolvedPost],
    .setViewClicked .editor,
    .save "data:image/jpeg;base64,AAAA",
    .authStateChanged none,
    .addDocSettled true ]

end NoAIjsx

/-! ## Facts about the model of `Array.prototype.sort` -/

section SortFacts

variable {α : Type}

theorem jsSort_perm (cmp : α → α → Int) (l : List α) : (jsSort cmp l).Perm l :=
  List.perm_insertionSort _ l

theorem jsSort_length (cmp : α → α → Int) (l : List α) : (jsSort cmp l).length = l.length :=
  (jsSort_perm cmp l).length_eq

theorem mem_jsSort (cmp : α → α → Int) (l : List α) (x : α) : x ∈ jsSort cmp l ↔ x ∈ l :=
  (jsSort_perm cmp l).mem_iff

/-- A comparator of the form `key b - key a` sorts into descending key order. -/
theorem jsSort_pairwise_of_key (key : α → Int) (l : List α) :
    (jsSort (fun a b => key b - key a) l).Pairwise (fun a b => key b ≤ key a) := by
  have htotal : IsTotal α (fun a b => key b - key a ≤ 0) :=
    ⟨fun a b => by
      rcases le_total (key a) (key b) with h | h
      · right; omega
      · left; omega⟩
  have htrans : IsTrans α (fun a b => key b - key a ≤ 0) :=
    ⟨fun a b c hab hbc => by
      have h1 : key b - key a ≤ 0 := hab
      have h2 : key c - key b ≤ 0 := hbc
      show key c - key a ≤ 0
      omega⟩
  have hs := @List.sorted_insertionSort α (fun a b => key b - key a ≤ 0) _ htotal htrans l
  unfold jsSort
  refine List.Pairwise.imp ?_ hs
  intro a b hab
  have h1 : key b - key a ≤ 0 := hab
  omega

end SortFacts

namespace NoAIjsx

/-! ## The merged feed -/

theorem combinedFeed_mem (now : Int) (realPosts : List Post) (p : Post) :
    p ∈ combinedFeed now realPosts ↔ p ∈ realPosts ∨ p ∈ MOCK_POSTS := by
  unfold combinedFeed
  rw [mem_jsSort, List.mem_append]

theorem MOCK_POSTS_resolved : ∀ p ∈ MOCK_POSTS, resolved p = true := by decide

theorem toDate?_of_resolved (now : Int) (p : Post) (h : resolved p = true) :
    toDate? now p.timestamp = some (sortTime now p) := by
  unfold resolved at h
  unfold sortTime
  cases hts : p.timestamp <;> simp [hts, toDate?] at h ⊢

/-- The merged feed is in descending order of the comparator's sort key, for every input. -/
theorem combinedFeed_pairwise_sortTime (now : Int) (realPosts : List Post) :
    (combinedFeed now realPosts).Pairwise (fun a b => sortTime now b ≤ sortTime now a) :=
  jsSort_pairwise_of_key (sortTime now) (realPosts ++ MOCK_POSTS)

/-- An unresolved post sorts with key 0, the epoch, in the merged feed. -/
theorem sortTime_of_unresolved (now : Int) (p : Post) (h : resolved p = false) :
    sortTime now p = 0 := by
  unfold resolved at h
  unfold sortTime
  cases hts : p.timestamp <;> simp [hts, toDate?] at h ⊢

/-- Once the current time is later than one hour after the epoch, the first post of the
merged feed always has a resolved timestamp: an unresolved post is never the most
recent one. -/
theorem combinedFeed_head_resolved (now : Int) (realPosts : List Post) (hnow : 3600000 < now)
    (p : Post) (hp : (combinedFeed now realPosts).head? = some p) : resolved p = true := by
  have hsorted := combinedFeed_pairwise_sortTime now realPosts
  have hmock : (MOCK_POSTS.get ⟨0, by decide⟩) ∈ combinedFeed now realPosts :=
    (combinedFeed_mem now realPosts _).2 (Or.inr (List.get_mem _ _ _))
  have hkey : sortTime now (MOCK_POSTS.get ⟨0, by decide⟩) = now - 3600000 := rfl
  cases hl : combinedFeed now realPosts with
  | nil => rw [hl] at hp; exact absurd hp (by simp)
  | cons q t =>
    rw [hl] at hp hsorted hmock
    simp only [List.head?_cons, Option.some.injEq] at hp
    subst hp
    have hge : sortTime now (MOCK_POSTS.get ⟨0, by decide⟩) ≤ sortTime now q := by
      rcases List.mem_cons.1 hmock with h | h
      · rw [h]
      · exact (List.pairwise_cons.1 hsorted).1 _ h
    cases hr : resolved q with
    | true => rfl
    | false =>
      have h0 := sortTime_of_unresolved now q hr
      omega

/-- C1 (the code at the failing input): at a current time of 1700000000000 ms, a freshly
created remote post whose timestamp is still absent is placed by `combinedFeed` after
all three seed posts, each of which has a resolved timestamp; it is the last post of the
feed, not the first. -/
theorem C1_pending_post_sorts_last :
    combinedFeed 1700000000000 [pendingPost] = MOCK_POSTS ++ [pendingPost] ∧
      resolved pendingPost = false ∧ MOCK_POSTS.map resolved = [true, true, true] := by
  refine ⟨by decide, by decide, by decide⟩

/-- C2: when every remote post has a resolved timestamp, the merged feed at a fixed
current time is sorted descending by timestamp: every post's time is at least the time
of each later post (pairwise), in particular of the post right after it (chain). -/
theorem C2_combinedFeed_sorted_descending (now : Int) (realPosts : List Post)
    (h : ∀ p ∈ realPosts, resolved p = true) :
    (combinedFeed now realPosts).Pairwise
        (fun a b => ∃ ta tb, toDate? now a.timestamp = some ta ∧
          toDate? now b.timestamp = some tb ∧ tb ≤ ta) ∧
      (combinedFeed now realPosts).Chain'
        (fun a b => ∃ ta tb, toDate? now a.timestamp = some ta ∧
          toDate? now b.timestamp = some tb ∧ tb ≤ ta) := by
  have hres : ∀ p ∈ combinedFeed now realPosts, resolved p = true := by
    intro p hp
    rcases (combinedFeed_mem now realPosts p).1 hp with hp | hp
    · exact h p hp
    · exact MOCK_POSTS_resolved p hp
  have hpw : (combinedFeed now realPosts).Pairwise
      (fun a b => ∃ ta tb, toDate? now a.timestamp = some ta ∧
        toDate? now b.timestamp = some tb ∧ tb ≤ ta) := by
    refine List.Pairwise.imp_of_mem ?_ (combinedFeed_pairwise_sortTime now realPosts)
    intro a b ha hb hab
    exact ⟨sortTime now a, sortTime now b, toDate?_of_resolved now a (hres a ha),
      toDate?_of_resolved now b (hres b hb), hab⟩
  exact ⟨hpw, List.Pairwise.chain' hpw⟩

/-- C2 at a concrete input: one resolved remote post merged with the seed posts. -/
theorem C2_combinedFeed_sorted_descending_witness :
    (∀ p ∈ [resolvedPost], resolved p = true) ∧
      (combinedFeed 1700000000000 [resolvedPost]).Chain'
        (fun a b => ∃ ta tb, toDate? 1700000000000 a.timestamp = some ta ∧
          toDate? 1700000000000 b.timestamp = some tb ∧ tb ≤ ta) :=
  ⟨by decide, (C2_combinedFeed_sorted_descending 1700000000000 [resolvedPost] (by decide)).2⟩

/-- C3: the merged feed is a permutation of the remote posts followed by the seed
posts: its length is the sum of the two lengths and every post occurs in it exactly as
often as in the two inputs together. -/
theorem C3_combinedFeed_perm (now : Int) (realPosts : List Post) :
    (combinedFeed now realPosts).Perm (realPosts ++ MOCK_POSTS) ∧
      (combinedFeed now realPosts).length = realPosts.length + MOCK_POSTS.length ∧
      ∀ p : Post, (combinedFeed now realPosts).count p =
        realPosts.count p + MOCK_POSTS.count p := by
  have hp : (combinedFeed now realPosts).Perm (realPosts ++ MOCK_POSTS) :=
    jsSort_perm (feedCompare now) (realPosts ++ MOCK_POSTS)
  refine ⟨hp, ?_, ?_⟩
  · rw [hp.length_eq, List.length_append]
  · intro p
    rw [hp.count_eq, List.count_append]

/-! ## The follow filter -/

theorem keepInFollowing_iff (following : List String) (user : Option User) (p : Post) :
    keepInFollowing following user p = true ↔
      p.authorId ∈ following ∨ ∃ u, user = some u ∧ p.authorId = u.uid := by
  unfold keepInFollowing
  cases user with
  | none => simp
  | some u => simp

/-- C4: in 'following' mode `displayPosts` keeps a post exactly when its author is in the
follow list or is the viewer: the result is a sublist of the input (relative order
kept), a post is in the result iff it is in the input and passes the test, and a post
that passes occurs as often as in the input.  With authors A, B, C, follow list [B] and
viewer C the result is the posts of B and C. -/
theorem C4_displayPosts_following :
    (∀ (posts : List Post) (following : List String) (user : Option User),
      (displayPosts .following posts following user).Sublist posts ∧
      (∀ p : Post, p ∈ displayPosts .following posts following user ↔
        p ∈ posts ∧ (p.authorId ∈ following ∨ ∃ u, user = some u ∧ p.authorId = u.uid)) ∧
      (∀ p : Post, (p.authorId ∈ following ∨ ∃ u, user = some u ∧ p.authorId = u.uid) →
        (displayPosts .following posts following user).count p = posts.count p)) ∧
    (displayPosts .following postsABC ["B"] (some viewerC)).map (fun p => p.authorId)
      = ["B", "C"] := by
  refine ⟨?_, by decide⟩
  intro posts following user
  refine ⟨List.filter_sublist posts, ?_, ?_⟩
  · intro p
    show p ∈ posts.filter (keepInFollowing following user) ↔ _
    rw [List.mem_filter, keepInFollowing_iff]
  · intro p hp
    show (posts.filter (keepInFollowing following user)).count p = posts.count p
    rw [List.count_filter]
    exact (keepInFollowing_iff following user p).2 hp

/-- C4 at a concrete input: the post of B is kept, with its multiplicity, under follow
list [B] and viewer C. -/
theorem C4_displayPosts_following_witness :
    (displayPosts .following postsABC ["B"] (some viewerC)).count
        { id := "p2", authorId := "B", authorName := "b", authorAvatar := "", imageUrl := "",
          caption := "", timestamp := .firestore 20, likes := some [] }
      = postsABC.count
        { id := "p2", authorId := "B", authorName := "b", authorAvatar := "", imageUrl := "",
          caption := "", timestamp := .firestore 20, likes := some [] } :=
  (C4_displayPosts_following.1 postsABC ["B"] (some viewerC)).2.2 _ (Or.inl (by decide))

/-- C5: in 'global' mode `displayPosts` returns its input list unchanged. -/
theorem C5_displayPosts_global (posts : List Post) (following : List String)
    (user : Option User) : displayPosts .global posts following user = posts := rfl

end NoAIjsx

/-! ## Like toggles -/

section LikeFacts

theorem filter_ne_toFinset (likes : List String) (u : String) :
    (likes.filter (fun id => id != u)).toFinset = likes.toFinset \ {u} := by
  ext x
  simp [List.mem_filter]

theorem append_singleton_toFinset (likes : List String) (u : String) :
    (likes ++ [u]).toFinset = likes.toFinset ∪ {u} := by
  ext x
  simp

theorem filter_ne_nodup (likes : List String) (u : String) (h : likes.Nodup) :
    (likes.filter (fun id => id != u)).Nodup :=
  h.filter _

theorem append_singleton_nodup (likes : List String) (u : String) (h : likes.Nodup)
    (hu : u ∉ likes) : (likes ++ [u]).Nodup := by
  rw [List.nodup_append]
  refine ⟨h, List.nodup_singleton u, ?_⟩
  intro a ha hb
  simp only [List.mem_singleton] at hb
  exact hu (hb ▸ ha)

theorem NoAIjs.newLikes_toFinset (likes : List String) (u : String) :
    (NoAIjs.newLikes likes u).toFinset =
      if u ∈ likes then likes.toFinset \ {u} else likes.toFinset ∪ {u} := by
  unfold NoAIjs.newLikes NoAIjs.isLiked
  by_cases h : u ∈ likes
  · simp only [List.elem_eq_mem, decide_eq_true_eq, h, if_true]
    exact filter_ne_toFinset likes u
  · simp only [List.elem_eq_mem, decide_eq_true_eq, h, if_false]
    exact append_singleton_toFinset likes u

theorem NoAIjs.newLikes_nodup (likes : List String) (u : String) (h : likes.Nodup) :
    (NoAIjs.newLikes likes u).Nodup := by
  unfold NoAIjs.newLikes NoAIjs.isLiked
  by_cases hu : u ∈ likes
  · simp only [List.elem_eq_mem, decide_eq_true_eq, hu, if_true]
    exact filter_ne_nodup likes u h
  · simp only [List.elem_eq_mem, decide_eq_true_eq, hu, if_false]
    exact append_singleton_nodup likes u h hu

theorem LikesValue.apply_arrayUnion_nodup (stored : List String) (u : String)
    (h : stored.Nodup) : ((LikesValue.arrayUnion u).apply stored).Nodup := by
  unfold LikesValue.apply
  by_cases hu : u ∈ stored
  · simp only [List.elem_eq_mem, decide_eq_true_eq, hu, if_true]
    exact h
  · simp only [List.elem_eq_mem, decide_eq_true_eq, hu, if_false]
    exact append_singleton_nodup stored u h hu

theorem LikesValue.apply_arrayRemove_nodup (stored : List String) (u : String)
    (h : stored.Nodup) : ((LikesValue.arrayRemove u).apply stored).Nodup :=
  filter_ne_nodup stored u h

theorem NoAIjsx.likesUpdate_apply_nodup (post : NoAIjsx.Post) (user : NoAIjsx.User)
    (stored : List String) (h : stored.Nodup) :
    ((NoAIjsx.likesUpdate post user).apply stored).Nodup := by
  unfold NoAIjsx.likesUpdate
  split
  · exact LikesValue.apply_arrayRemove_nodup stored _ h
  · exact LikesValue.apply_arrayUnion_nodup stored _ h

end LikeFacts

/-- C6: the like toggle computes, as a set, the likes without the user when the user is
a member of the post's likes and the likes with the user added otherwise: for the
`newLikes` of `handleLikeToggle` (NoAI.js) and for the transform `toggleLike` (NoAI.jsx)
writes, applied to the post's likes; both handlers write exactly that value to the post's
document.  Likes ["u1"] toggled by "u2" give ["u1", "u2"], and toggled by "u2" again
give ["u1"]. -/
theorem C6_like_toggle_set :
    (∀ (likes : List String) (userId : String),
      (NoAIjs.newLikes likes userId).toFinset =
        if userId ∈ likes then likes.toFinset \ {userId} else likes.toFinset ∪ {userId}) ∧
    (∀ (post : NoAIjsx.Post) (user : NoAIjsx.User),
      ((NoAIjsx.likesUpdate post user).apply (post.likes.getD [])).toFinset =
        if user.uid ∈ post.likes.getD [] then (post.likes.getD []).toFinset \ {user.uid}
        else (post.likes.getD []).toFinset ∪ {user.uid}) ∧
    (∀ (db : Firestore) (userId : String) (post : NoAIjs.Post), userId ≠ "" →
      NoAIjs.handleLikeToggle (some db) (some userId) post =
        some { postId := post.id, likes := .array (NoAIjs.newLikes post.likes userId) }) ∧
    (∀ (db : Firestore) (user : NoAIjsx.User) (post : NoAIjsx.Post),
      startsWith post.id "mock_" = false →
      NoAIjsx.toggleLike (some db) (some user) post =
        some { postId := post.id, likes := NoAIjsx.likesUpdate post user }) ∧
    NoAIjs.newLikes ["u1"] "u2" = ["u1", "u2"] ∧
    NoAIjs.newLikes (NoAIjs.newLikes ["u1"] "u2") "u2" = ["u1"] := by
  refine ⟨NoAIjs.newLikes_toFinset, ?_, ?_, ?_, by decide, by decide⟩
  · intro post user
    unfold NoAIjsx.likesUpdate NoAIjsx.isLiked LikesValue.apply
    cases hl : post.likes with
    | none => simp
    | some likes =>
      by_cases hu : user.uid ∈ likes
      · simp only [List.elem_eq_mem, decide_eq_true_eq, hu, if_true, Option.getD_some]
        exact filter_ne_toFinset likes user.uid
      · simp only [List.elem_eq_mem, decide_eq_true_eq, hu, if_false, Option.getD_some]
        exact append_singleton_toFinset likes user.uid
  · intro db userId post hne
    simp [NoAIjs.handleLikeToggle, NoAIjs.truthyId, hne]
  · intro db user post hid
    simp [NoAIjsx.toggleLike, hid]

/-- C6 at a concrete input: a signed-in user toggling a remote post in either file. -/
theorem C6_like_toggle_set_witness :
    NoAIjs.handleLikeToggle (some NoAIjsx.demoDb) (some "u2")
        { id := "p1", imageUrl := "", caption := "", authorId := "u1", timestamp := some 10,
          likes := ["u1"] } =
      some { postId := "p1", likes := .array ["u1", "u2"] } ∧
    NoAIjsx.toggleLike (some NoAIjsx.demoDb) (some NoAIjsx.demoUser) NoAIjsx.resolvedPost =
      some { postId := "Zq81LmN0pRs2TuV3wXy4", likes := .arrayRemove "uid_demo" } :=
  ⟨C6_like_toggle_set.2.2.1 NoAIjsx.demoDb "u2" _ (by decide),
   C6_like_toggle_set.2.2.2.1 NoAIjsx.demoDb NoAIjsx.demoUser NoAIjsx.resolvedPost (by decide)⟩

/-- A double toggle by one user has the members of the array it started from. -/
theorem NoAIjs.newLikes_twice_toFinset (likes : List String) (u : String) :
    (NoAIjs.newLikes (NoAIjs.newLikes likes u) u).toFinset = likes.toFinset := by
  rw [NoAIjs.newLikes_toFinset, NoAIjs.newLikes_toFinset]
  have hmem : u ∈ NoAIjs.newLikes likes u ↔ u ∉ likes := by
    unfold NoAIjs.newLikes NoAIjs.isLiked
    by_cases h : u ∈ likes
    · simp [h, List.mem_filter]
    · simp [h]
  by_cases h : u ∈ likes
  · have h2 : u ∉ NoAIjs.newLikes likes u := fun hc => (hmem.1 hc) h
    simp only [h, h2, if_true, if_false]
    ext x
    by_cases hx : x = u
    · subst hx; simp [h]
    · simp [hx]
  · have h2 : u ∈ NoAIjs.newLikes likes u := hmem.2 h
    simp only [h, h2, if_true, if_false]
    ext x
    by_cases hx : x = u
    · subst hx; simp [h]
    · simp [hx]

/-- On a duplicate-free likes array a double toggle gives back a permutation of the
array. -/
theorem NoAIjs.newLikes_twice_perm (likes : List String) (u : String) (h : likes.Nodup) :
    (NoAIjs.newLikes (NoAIjs.newLikes likes u) u).Perm likes := by
  rw [List.perm_ext_iff_of_nodup
    (NoAIjs.newLikes_nodup _ u (NoAIjs.newLikes_nodup likes u h)) h]
  intro x
  have := NoAIjs.newLikes_twice_toFinset likes u
  rw [Finset.ext_iff] at this
  simpa using this x

/-- The array itself may come back reordered: a double toggle by a member moves that
member to the end. -/
theorem NoAIjs.newLikes_twice_reorders :
    NoAIjs.newLikes (NoAIjs.newLikes ["u2", "u1"] "u2") "u2" = ["u1", "u2"] := by decide

/-- A like followed by an unlike gives back the very array: when the user is not a
member, the double toggle returns `likes` itself. -/
theorem NoAIjs.newLikes_twice_of_not_mem (likes : List String) (u : String)
    (h : u ∉ likes) : NoAIjs.newLikes (NoAIjs.newLikes likes u) u = likes := by
  have h1 : NoAIjs.newLikes likes u = likes ++ [u] := by
    unfold NoAIjs.newLikes NoAIjs.isLiked
    simp only [List.elem_eq_mem, decide_eq_true_eq, h, if_false]
  rw [h1]
  unfold NoAIjs.newLikes NoAIjs.isLiked
  have h2 : u ∈ likes ++ [u] := by simp
  simp only [List.elem_eq_mem, decide_eq_true_eq, h2, if_true]
  rw [List.filter_append]
  have h3 : likes.filter (fun id => id != u) = likes := by
    rw [List.filter_eq_self]
    intro a ha
    have : a ≠ u := fun hc => h (hc ▸ ha)
    simpa using this
  rw [h3]
  simp

/-- C7: the like toggle is an involution on like sets: for every likes array and every
user, the members of `newLikes (newLikes likes u) u` are exactly the members of `likes`;
and for a like followed by an unlike (the user not a member at first) the double toggle
returns the array `likes` itself. -/
theorem C7_like_toggle_involution :
    (∀ (likes : List String) (u : String),
      (NoAIjs.newLikes (NoAIjs.newLikes likes u) u).toFinset = likes.toFinset) ∧
    (∀ (likes : List String) (u : String), u ∉ likes →
      NoAIjs.newLikes (NoAIjs.newLikes likes u) u = likes) :=
  ⟨NoAIjs.newLikes_twice_toFinset, NoAIjs.newLikes_twice_of_not_mem⟩

/-- C7 at a concrete input: likes ["u1"] toggled twice by "u2" are ["u1"] again. -/
theorem C7_like_toggle_involution_witness :
    NoAIjs.newLikes (NoAIjs.newLikes ["u1"] "u2") "u2" = ["u1"] :=
  C7_like_toggle_involution.2 ["u1"] "u2" (by decide)

theorem NoAIjs.handlePost_js_likes_nil (db : Option Firestore) (userId : Option String)
    (postCount : Nat) (pick : Fin 3) (np : NoAIjs.NewPost)
    (h : NoAIjs.handlePost db userId postCount pick = some np) : np.likes = [] := by
  unfold NoAIjs.handlePost at h
  split at h
  · split at h
    · simp only [Option.some.injEq] at h
      rw [← h]
    · exact absurd h (by simp)
  · exact absurd h (by simp)

theorem NoAIjsx.handlePost_jsx_likes_nil (db : Option Firestore) (user : Option NoAIjsx.User)
    (imageDataUrl : String) (np : NoAIjsx.NewPost)
    (h : NoAIjsx.handlePost db user imageDataUrl = some np) : np.likes = [] := by
  unfold NoAIjsx.handlePost at h
  split at h
  · simp only [Option.some.injEq] at h
    rw [← h]
  · exact absurd h (by simp)

theorem NoAIjs.foldl_newLikes_nodup (users : List String) :
    ∀ likes : List String, likes.Nodup → (users.foldl NoAIjs.newLikes likes).Nodup := by
  induction users with
  | nil => intro likes h; exact h
  | cons u us ih =>
    intro likes h
    exact ih _ (NoAIjs.newLikes_nodup likes u h)

theorem NoAIjsx.foldl_likesUpdate_nodup (toggles : List (NoAIjsx.Post × NoAIjsx.User)) :
    ∀ stored : List String, stored.Nodup →
      (toggles.foldl (fun stored t => (NoAIjsx.likesUpdate t.1 t.2).apply stored)
        stored).Nodup := by
  induction toggles with
  | nil => intro stored h; exact h
  | cons t ts ih =>
    intro stored h
    exact ih _ (NoAIjsx.likesUpdate_apply_nodup t.1 t.2 stored h)

/-- C8: the likes of a post never contain duplicates.  In both files `handlePost`
creates a post with the empty likes list; a like toggle turns a duplicate-free likes
list into a duplicate-free one (the `newLikes` array of NoAI.js, and the transform of
NoAI.jsx applied to the stored array); hence the likes of a created post after any
sequence of toggles are duplicate-free. -/
theorem C8_likes_never_duplicate :
    (∀ (db : Option Firestore) (userId : Option String) (postCount : Nat) (pick : Fin 3)
        (np : NoAIjs.NewPost),
      NoAIjs.handlePost db userId postCount pick = some np → np.likes = []) ∧
    (∀ (db : Option Firestore) (user : Option NoAIjsx.User) (imageDataUrl : String)
        (np : NoAIjsx.NewPost),
      NoAIjsx.handlePost db user imageDataUrl = some np → np.likes = []) ∧
    (∀ (likes : List String) (userId : String),
      likes.Nodup → (NoAIjs.newLikes likes userId).Nodup) ∧
    (∀ (post : NoAIjsx.Post) (user : NoAIjsx.User) (stored : List String),
      stored.Nodup → ((NoAIjsx.likesUpdate post user).apply stored).Nodup) ∧
    (∀ (db : Option Firestore) (userId : Option String) (postCount : Nat) (pick : Fin 3)
        (np : NoAIjs.NewPost),
      NoAIjs.handlePost db userId postCount pick = some np →
        ∀ users : List String, (NoAIjs.likesAfter np users).Nodup) ∧
    (∀ (db : Option Firestore) (user : Option NoAIjsx.User) (imageDataUrl : String)
        (np : NoAIjsx.NewPost),
      NoAIjsx.handlePost db user imageDataUrl = some np →
        ∀ toggles : List (NoAIjsx.Post × NoAIjsx.User),
          (NoAIjsx.likesAfter np toggles).Nodup) := by
  refine ⟨NoAIjs.handlePost_js_likes_nil, NoAIjsx.handlePost_jsx_likes_nil, NoAIjs.newLikes_nodup,
    NoAIjsx.likesUpdate_apply_nodup, ?_, ?_⟩
  · intro db userId postCount pick np h users
    unfold NoAIjs.likesAfter
    rw [NoAIjs.handlePost_js_likes_nil db userId postCount pick np h]
    exact NoAIjs.foldl_newLikes_nodup users [] List.nodup_nil
  · intro db user imageDataUrl np h toggles
    unfold NoAIjsx.likesAfter
    rw [NoAIjsx.handlePost_jsx_likes_nil db user imageDataUrl np h]
    exact NoAIjsx.foldl_likesUpdate_nodup toggles [] List.nodup_nil

/-- C8 at a concrete input: a post created in NoAI.js by a signed-in user has no likes
and stays duplicate-free when toggled by u1, u2, u1; a post created in NoAI.jsx has no
likes and stays duplicate-free when toggled twice by the demo user on the same snapshot;
and the toggle of ["u1"] by u2 is duplicate-free. -/
theorem C8_likes_never_duplicate_witness :
    (({ imageUrl := "https://placehold.co/600x400/DCC7C1/9B7D7D?text=Authentic+Moment+1",
        caption := "Human-made moment #1", authorId := JsString.ofString "uid_demo",
        likes := [] } : NoAIjs.NewPost).likes = []) ∧
    (({ authorId := "uid_demo", authorName := "Demo User",
        authorAvatar := some "https://placehold.co/100x100/333/fff?text=ME",
        imageUrl := "data:image/jpeg;base64,AAAA",
        caption := "Just captured this #nofilter #noai",
        likes := [] } : NoAIjsx.NewPost).likes = []) ∧
    (NoAIjs.likesAfter
        { imageUrl := "https://placehold.co/600x400/DCC7C1/9B7D7D?text=Authentic+Moment+1",
          caption := "Human-made moment #1", authorId := JsString.ofString "uid_demo",
          likes := [] }
        ["u1", "u2", "u1"]).Nodup ∧
    (NoAIjsx.likesAfter
        { authorId := "uid_demo", authorName := "Demo User",
          authorAvatar := some "https://placehold.co/100x100/333/fff?text=ME",
          imageUrl := "data:image/jpeg;base64,AAAA",
          caption := "Just captured this #nofilter #noai", likes := [] }
        [(NoAIjsx.pendingPost, NoAIjsx.demoUser), (NoAIjsx.pendingPost, NoAIjsx.demoUser)]).Nodup ∧
    (NoAIjs.newLikes ["u1"] "u2").Nodup ∧
    ((NoAIjsx.likesUpdate NoAIjsx.resolvedPost NoAIjsx.demoUser).apply ["uid_demo"]).Nodup :=
  ⟨C8_likes_never_duplicate.1 (some NoAIjsx.demoDb) (some "uid_demo_1234") 0 0 _ (by decide),
   C8_likes_never_duplicate.2.1 (some NoAIjsx.demoDb) (some NoAIjsx.demoUser)
      "data:image/jpeg;base64,AAAA" _ (by decide),
   C8_likes_never_duplicate.2.2.2.2.1 (some NoAIjsx.demoDb) (some "uid_demo_1234") 0 0 _
      (by decide) _,
   C8_likes_never_duplicate.2.2.2.2.2 (some NoAIjsx.demoDb) (some NoAIjsx.demoUser)
      "data:image/jpeg;base64,AAAA" _ (by decide) _,
   C8_likes_never_duplicate.2.2.1 ["u1"] "u2" (by decide),
   C8_likes_never_duplicate.2.2.2.1 NoAIjsx.resolvedPost NoAIjsx.demoUser ["uid_demo"]
      (by decide)⟩

/-! ## Which like toggles are committed -/

theorem NoAIjsx.toggleLike_isSome (db : Firestore) (user : NoAIjsx.User)
    (post : NoAIjsx.Post) :
    (NoAIjsx.toggleLike (some db) (some user) post).isSome = !startsWith post.id "mock_" := by
  unfold NoAIjsx.toggleLike
  cases startsWith post.id "mock_" <;> simp

/-- C9 (the claim fails): a remote post whose document id is "mock_9" is in the merged
feed and is none of the seed posts, yet with a store and a signed-in user present
`toggleLike` issues no write for it, and its like button is disabled. -/
theorem C9_remote_post_with_mock_id_not_committed :
    NoAIjsx.remoteMockIdPost ∈
        NoAIjsx.combinedFeed 1700000000000 [NoAIjsx.remoteMockIdPost] ∧
      NoAIjsx.remoteMockIdPost ∉ NoAIjsx.MOCK_POSTS ∧
      NoAIjsx.toggleLike (some NoAIjsx.demoDb) (some NoAIjsx.demoUser)
        NoAIjsx.remoteMockIdPost = none ∧
      NoAIjsx.likeButtonDisabled NoAIjsx.remoteMockIdPost = true := by
  refine ⟨by decide, by decide, by decide, by decide⟩

/-- C9 (amended): with a store and a signed-in user present, `toggleLike` commits the
like change exactly when the post's id does not begin with the seed prefix "mock_", and
the like button is disabled exactly for the ids that do; no seed post is committed;
every post of the merged feed that is committed is a remote post; and a remote post is
committed when its id does not begin with "mock_". -/
theorem C9_toggleLike_commits_unless_mock_id :
    (∀ (db : Firestore) (user : NoAIjsx.User) (post : NoAIjsx.Post),
      (NoAIjsx.toggleLike (some db) (some user) post).isSome =
        !startsWith post.id "mock_") ∧
    (∀ post : NoAIjsx.Post,
      NoAIjsx.likeButtonDisabled post = startsWith post.id "mock_") ∧
    (∀ (db : Firestore) (user : NoAIjsx.User),
      NoAIjsx.MOCK_POSTS.map (NoAIjsx.toggleLike (some db) (some user)) =
        [none, none, none]) ∧
    (∀ (now : Int) (realPosts : List NoAIjsx.Post) (db : Firestore) (user : NoAIjsx.User)
        (post : NoAIjsx.Post),
      post ∈ NoAIjsx.combinedFeed now realPosts →
      (NoAIjsx.toggleLike (some db) (some user) post).isSome = true →
        post ∈ realPosts) ∧
    (∀ (now : Int) (realPosts : List NoAIjsx.Post) (db : Firestore) (user : NoAIjsx.User)
        (post : NoAIjsx.Post),
      post ∈ realPosts → startsWith post.id "mock_" = false →
        post ∈ NoAIjsx.combinedFeed now realPosts ∧
        NoAIjsx.toggleLike (some db) (some user) post =
          some { postId := post.id, likes := NoAIjsx.likesUpdate post user }) := by
  refine ⟨NoAIjsx.toggleLike_isSome, ?_, ?_, ?_, ?_⟩
  · intro post
    simp [NoAIjsx.likeButtonDisabled, NoAIjsx.isMock]
  · intro db user
    simp [NoAIjsx.MOCK_POSTS, NoAIjsx.toggleLike, startsWith]
  · intro now realPosts db user post hmem hsome
    rcases (NoAIjsx.combinedFeed_mem now realPosts post).1 hmem with h | h
    · exact h
    · exfalso
      rw [NoAIjsx.toggleLike_isSome] at hsome
      have hall : ∀ p ∈ NoAIjsx.MOCK_POSTS, startsWith p.id "mock_" = true := by decide
      rw [hall post h] at hsome
      exact absurd hsome (by decide)
  · intro now realPosts db user post hmem hid
    refine ⟨(NoAIjsx.combinedFeed_mem now realPosts post).2 (Or.inl hmem), ?_⟩
    simp [NoAIjsx.toggleLike, hid]

/-- C9 (amended) at a concrete input: a remote post with a store-assigned id is in the
merged feed, its like toggle is committed, and being committed it is a remote post. -/
theorem C9_toggleLike_commits_unless_mock_id_witness :
    (NoAIjsx.resolvedPost ∈ NoAIjsx.combinedFeed 1700000000000 [NoAIjsx.resolvedPost] ∧
      NoAIjsx.toggleLike (some NoAIjsx.demoDb) (some NoAIjsx.demoUser) NoAIjsx.resolvedPost =
        some { postId := NoAIjsx.resolvedPost.id,
               likes := NoAIjsx.likesUpdate NoAIjsx.resolvedPost NoAIjsx.demoUser }) ∧
    NoAIjsx.resolvedPost ∈ [NoAIjsx.resolvedPost] :=
  ⟨C9_toggleLike_commits_unless_mock_id.2.2.2.2 1700000000000 [NoAIjsx.resolvedPost]
      NoAIjsx.demoDb NoAIjsx.demoUser NoAIjsx.resolvedPost (by decide) (by decide),
   C9_toggleLike_commits_unless_mock_id.2.2.2.1 1700000000000 [NoAIjsx.resolvedPost]
      NoAIjsx.demoDb NoAIjsx.demoUser NoAIjsx.resolvedPost (by decide) (by decide)⟩

/-! ## The editor canvas size -/

/-- The number model at two known constants: 0.1 is 0x1.999999999999ap-4 and 1 is
0x1p+0. -/
theorem toDouble_known_values :
    toDouble 1 10 = ⟨7205759403792794, -56⟩ ∧ Dbl.ofNat 1 = ⟨4503599627370496, -52⟩ := by
  decide

/-- The halving count brackets a positive `n` between two powers of two. -/
theorem ilog2Aux_spec : ∀ (fuel n : Nat), 0 < n → n ≤ fuel →
    2 ^ ilog2Aux fuel n ≤ n ∧ n < 2 ^ (ilog2Aux fuel n + 1) := by
  intro fuel
  induction fuel with
  | zero => intro n hn hf; omega
  | succ fuel ih =>
    intro n hn hf
    unfold ilog2Aux
    by_cases h2 : n < 2
    · simp only [h2, if_true]
      constructor <;> simp <;> omega
    · simp only [h2, if_false]
      have hpos : 0 < n / 2 := by omega
      have hle : n / 2 ≤ fuel := by omega
      obtain ⟨h1, h3⟩ := ih (n / 2) hpos hle
      generalize ilog2Aux fuel (n / 2) = k at h1 h3
      rw [pow_succ] at h3
      constructor
      · rw [pow_succ]; omega
      · rw [pow_succ, pow_succ]; omega

/-- The highest set bit: `2 ^ ilog2 n ≤ n < 2 ^ (ilog2 n + 1)`. -/
theorem ilog2_spec (n : Nat) (hn : 0 < n) : 2 ^ ilog2 n ≤ n ∧ n < 2 ^ (ilog2 n + 1) :=
  ilog2Aux_spec n n hn (le_refl n)

/-- An exact quotient is its own rounding. -/
theorem roundHalfEven_mul (q d : Nat) (hd : 0 < d) : roundHalfEven (q * d) d = q := by
  unfold roundHalfEven
  simp [Nat.mul_div_cancel _ hd, hd]

/-- Rounding to nearest is off by at most one half: `|r * d - n| ≤ d / 2`. -/
theorem roundHalfEven_bounds (n d : Nat) (hd : 0 < d) :
    2 * n ≤ 2 * (roundHalfEven n d * d) + d ∧ 2 * (roundHalfEven n d * d) ≤ 2 * n + d := by
  unfold roundHalfEven
  have hdm := Nat.div_add_mod n d
  have hlt := Nat.mod_lt n hd
  generalize n / d = q at hdm ⊢
  generalize n % d = r at hdm hlt ⊢
  have hq : d * q = q * d := Nat.mul_comm d q
  simp only []
  split
  · omega
  · split
    · rw [Nat.add_mul]; omega
    · split
      · omega
      · rw [Nat.add_mul]; omega

/-- The exponent `binade n d` brackets `n / d`: `2 ^ e ≤ n / d < 2 ^ (e + 1)`, stated
without division for a non-negative and for a negative exponent. -/
theorem binade_spec (n d : Nat) (hn : 0 < n) (hd : 0 < d) :
    (0 ≤ binade n d → d * 2 ^ (binade n d).toNat ≤ n ∧ n < d * 2 ^ ((binade n d).toNat + 1)) ∧
    (binade n d < 0 → d ≤ n * 2 ^ (-binade n d).toNat ∧ n * 2 ^ (-binade n d).toNat < 2 * d) := by
  obtain ⟨ha1, ha2⟩ := ilog2_spec n hn
  obtain ⟨hb1, hb2⟩ := ilog2_spec d hd
  unfold binade
  generalize ilog2 n = a at ha1 ha2 ⊢
  generalize ilog2 d = b at hb1 hb2 ⊢
  simp only []
  by_cases hab : b ≤ a
  · obtain ⟨t, rfl⟩ := Nat.exists_eq_add_of_le hab
    have he0 : ((b + t : Nat) : Int) - (b : Int) = (t : Int) := by omega
    rw [he0]
    have hpa : 2 ^ (b + t) = 2 ^ b * 2 ^ t := pow_add 2 b t
    have hpa1 : 2 ^ (b + t + 1) = 2 ^ (b + 1) * 2 ^ t := by
      rw [show b + t + 1 = (b + 1) + t by omega, pow_add]
    have hpb1 : 2 ^ (b + 1) = 2 * 2 ^ b := by rw [pow_succ]; omega
    have ht0 : (0 : Int) ≤ (t : Int) := Int.ofNat_nonneg t
    simp only [ht0, if_true, Int.toNat_ofNat]
    by_cases hlt : n < d * 2 ^ t
    · simp only [hlt, if_true]
      cases t with
      | zero =>
        simp only [pow_zero, Nat.mul_one, Nat.add_zero] at hlt hpa hpa1 ha1 ha2
        constructor
        · intro h; exfalso; simp at h
        · intro _
          have : (-((0 : Nat) : Int) + 1) = 1 := by omega
          simp only [Nat.cast_zero, zero_sub, neg_neg, Int.toNat_one, pow_one]
          omega
      | succ t =>
        have hs : ((t + 1 : Nat) : Int) - 1 = (t : Int) := by omega
        rw [hs]
        constructor
        · intro _
          simp only [Int.toNat_ofNat]
          refine ⟨?_, hlt⟩
          have hpt : 2 ^ (t + 1) = 2 * 2 ^ t := by rw [pow_succ]; omega
          have h1 : d * 2 ^ t < 2 ^ (b + 1) * 2 ^ t :=
            Nat.mul_lt_mul_of_pos_right hb2 (by positivity)
          have h2 : 2 ^ (b + 1) * 2 ^ t = 2 ^ b * 2 ^ (t + 1) := by
            rw [hpb1, hpt]; ring
          omega
        · intro h; exfalso; omega
    · simp only [hlt, if_false]
      constructor
      · intro _
        simp only [Int.toNat_ofNat]
        refine ⟨by omega, ?_⟩
        have h1 : 2 ^ b * 2 ^ (t + 1) ≤ d * 2 ^ (t + 1) :=
          Nat.mul_le_mul_right _ hb1
        have h2 : 2 ^ (b + 1) * 2 ^ t = 2 ^ b * 2 ^ (t + 1) := by
          rw [hpb1, pow_succ 2 t]; ring
        omega
      · intro h; exfalso; omega
  · have hab2 : a < b := by omega
    obtain ⟨t, rfl⟩ := Nat.exists_eq_add_of_lt hab2
    have he0 : ((a : Nat) : Int) - ((a + t + 1 : Nat) : Int) = -((t + 1 : Nat) : Int) := by
      omega
    rw [he0]
    have hneg : ¬ (0 : Int) ≤ -((t + 1 : Nat) : Int) := by omega
    simp only [hneg, if_false, neg_neg, Int.toNat_ofNat]
    have hpb : 2 ^ (a + t + 1) = 2 ^ a * 2 ^ (t + 1) := by
      rw [show a + t + 1 = a + (t + 1) by omega, pow_add]
    have hpb1 : 2 ^ (a + t + 1 + 1) = 2 * (2 ^ a * 2 ^ (t + 1)) := by
      rw [pow_succ, hpb]; omega
    have hm1 : 2 ^ a * 2 ^ (t + 1) ≤ n * 2 ^ (t + 1) := Nat.mul_le_mul_right _ ha1
    have hm2 : n * 2 ^ (t + 1) < 2 ^ (a + 1) * 2 ^ (t + 1) :=
      Nat.mul_lt_mul_of_pos_right ha2 (by positivity)
    have hpa1 : 2 ^ (a + 1) * 2 ^ (t + 1) = 2 * (2 ^ a * 2 ^ (t + 1)) := by
      rw [pow_succ 2 a]; ring
    by_cases hlt : n * 2 ^ (t + 1) < d
    · simp only [hlt, if_true]
      have hs : -((t + 1 : Nat) : Int) - 1 = -((t + 2 : Nat) : Int) := by omega
      rw [hs]
      constructor
      · intro h; exfalso; omega
      · intro _
        simp only [neg_neg, Int.toNat_ofNat]
        have hp2 : n * 2 ^ (t + 2) = 2 * (n * 2 ^ (t + 1)) := by
          rw [pow_succ 2 (t + 1)]; ring
        omega
    · simp only [hlt, if_false]
      constructor
      · intro h; exfalso; omega
      · intro _
        simp only [neg_neg, Int.toNat_ofNat]
        omega

/-- The bracketing exponent is unique. -/
theorem binade_eq_of_bounds (n d E : Nat) (hd : 0 < d) (h1 : d * 2 ^ E ≤ n)
    (h2 : n < d * 2 ^ (E + 1)) : binade n d = (E : Int) := by
  have hpE : 0 < 2 ^ E := by positivity
  have hn : 0 < n := lt_of_lt_of_le (Nat.mul_pos hd hpE) h1
  obtain ⟨hpos, hneg⟩ := binade_spec n d hn hd
  by_cases hb : 0 ≤ binade n d
  · obtain ⟨s1, s2⟩ := hpos hb
    obtain ⟨B, hB⟩ := Int.eq_ofNat_of_zero_le hb
    rw [hB] at s1 s2 ⊢
    simp only [Int.toNat_ofNat] at s1 s2
    have : B = E := by
      rcases Nat.lt_trichotomy B E with hlt | heq | hgt
      · exfalso
        have hp : 2 ^ (B + 1) ≤ 2 ^ E := Nat.pow_le_pow_right (by decide) hlt
        have := Nat.mul_le_mul_left d hp
        omega
      · exact heq
      · exfalso
        have hp : 2 ^ (E + 1) ≤ 2 ^ B := Nat.pow_le_pow_right (by decide) hgt
        have := Nat.mul_le_mul_left d hp
        omega
    rw [this]
  · exfalso
    have hb2 : binade n d < 0 := by omega
    obtain ⟨_, s2⟩ := hneg hb2
    obtain ⟨K, hK⟩ : ∃ K : Nat, -binade n d = ((K + 1 : Nat) : Int) :=
      ⟨(-binade n d).toNat - 1, by omega⟩
    rw [hK] at s2
    simp only [Int.toNat_ofNat] at s2
    have hp : 2 ^ (K + 1) = 2 * 2 ^ K := by rw [pow_succ]; omega
    have hpK : 0 < 2 ^ K := by positivity
    have h3 : n * 2 ≤ n * 2 ^ (K + 1) := Nat.mul_le_mul_left n (by omega)
    have h4 : d * 1 ≤ d * 2 ^ E := Nat.mul_le_mul_left d hpE
    omega

/-- The number 1 is `2 ^ 52 * 2 ^ (-52)`. -/
theorem Dbl.ofNat_one : Dbl.ofNat 1 = ⟨2 ^ 52, -52⟩ := by decide

/-- Multiplying an integer below `2 ^ 53` by the number 1 gives the integer back. -/
theorem Dbl.mulNat_one_trunc (a : Nat) (ha : a < 2 ^ 53) :
    (Dbl.mulNat a (Dbl.ofNat 1)).trunc = a := by
  rw [Dbl.ofNat_one]
  unfold Dbl.mulNat
  have hneg : ¬ (0 : Int) ≤ -52 := by decide
  simp only [hneg, if_false]
  have h52 : (-(-52 : Int)).toNat = 52 := by decide
  rw [h52]
  by_cases h0 : a = 0
  · subst h0
    simp [toDouble, Dbl.trunc]
  · have hapos : 0 < a := Nat.pos_of_ne_zero h0
    obtain ⟨l1, l2⟩ := ilog2_spec a hapos
    generalize hL : ilog2 a = L at l1 l2
    have hL53 : L < 53 := by
      by_contra hc
      have : 2 ^ 53 ≤ 2 ^ L := Nat.pow_le_pow_right (by decide) (by omega)
      omega
    have hbin : binade (a * 2 ^ 52) (2 ^ 52) = (L : Int) := by
      apply binade_eq_of_bounds _ _ _ (by positivity)
      · rw [Nat.mul_comm]; exact Nat.mul_le_mul_right _ l1
      · rw [Nat.mul_comm (2 ^ 52)]; exact Nat.mul_lt_mul_of_pos_right l2 (by positivity)
    unfold toDouble
    have hne : a * 2 ^ 52 ≠ 0 := by positivity
    simp only [hne, if_false, hbin]
    by_cases hL52 : L = 52
    · subst hL52
      simp only [Int.reduceSub, Nat.cast_ofNat, le_refl, if_true, Int.toNat_zero, pow_zero,
        Nat.mul_one]
      rw [roundHalfEven_mul a (2 ^ 52) (by positivity)]
      simp [Dbl.trunc]
    · have hlt : L < 52 := by omega
      obtain ⟨t, ht⟩ : ∃ t : Nat, 52 = L + (t + 1) := ⟨52 - L - 1, by omega⟩
      have he : ((L : Int) - 52) = -((t + 1 : Nat) : Int) := by omega
      have hneg2 : ¬ (0 : Int) ≤ -((t + 1 : Nat) : Int) := by omega
      simp only [he, hneg2, if_false, neg_neg, Int.toNat_ofNat]
      have hr : a * 2 ^ 52 * 2 ^ (t + 1) = (a * 2 ^ (t + 1)) * 2 ^ 52 := by ring
      rw [hr, roundHalfEven_mul _ (2 ^ 52) (by positivity)]
      simp only [Dbl.trunc, hneg2, if_false, neg_neg, Int.toNat_ofNat]
      exact Nat.mul_div_cancel a (by positivity)

/-- The number `w * (800 / w)` for a width above 800 has integer part 799 or 800. -/
theorem Dbl.mulNat_div_800_trunc (w : Nat) (hw : 800 < w) :
    799 ≤ (Dbl.mulNat w (Dbl.div 800 w)).trunc ∧ (Dbl.mulNat w (Dbl.div 800 w)).trunc ≤ 800 := by
  have hwpos : 0 < w := by omega
  obtain ⟨hpos, hneg⟩ := binade_spec 800 w (by decide) hwpos
  have hE : binade 800 w < 0 := by
    by_contra hc
    have hc2 : 0 ≤ binade 800 w := by omega
    obtain ⟨s1, _⟩ := hpos hc2
    have hp : 0 < 2 ^ (binade 800 w).toNat := by positivity
    have := Nat.mul_le_mul_left w hp
    omega
  obtain ⟨s1, s2⟩ := hneg hE
  obtain ⟨K, hK⟩ : ∃ K : Nat, binade 800 w = -((K + 1 : Nat) : Int) :=
    ⟨(-binade 800 w).toNat - 1, by omega⟩
  rw [hK] at s1 s2
  simp only [neg_neg, Int.toNat_ofNat] at s1 s2
  -- the scale
  have hscale : Dbl.div 800 w =
      ⟨roundHalfEven (800 * 2 ^ (K + 53)) w, -((K + 53 : Nat) : Int)⟩ := by
    unfold Dbl.div toDouble
    have h800 : (800 : Nat) ≠ 0 := by decide
    have he : -((K + 1 : Nat) : Int) - 52 = -((K + 53 : Nat) : Int) := by omega
    have hn : ¬ (0 : Int) ≤ -((K + 53 : Nat) : Int) := by omega
    simp only [h800, if_false, hK, he, hn, neg_neg, Int.toNat_ofNat]
  rw [hscale]
  obtain ⟨r1, r2⟩ := roundHalfEven_bounds (800 * 2 ^ (K + 53)) w hwpos
  generalize roundHalfEven (800 * 2 ^ (K + 53)) w = m at r1 r2 ⊢
  have hD : 2 ^ (K + 53) = 4503599627370496 * 2 ^ (K + 1) := by
    rw [show K + 53 = 52 + (K + 1) by omega, pow_add]; norm_num
  rw [hD] at r1 r2
  have hPpos : 0 < 2 ^ (K + 1) := by positivity
  -- the product
  unfold Dbl.mulNat
  have hn : ¬ (0 : Int) ≤ -((K + 53 : Nat) : Int) := by omega
  simp only [hn, if_false, neg_neg, Int.toNat_ofNat, hD]
  have hmw : m * w = w * m := Nat.mul_comm m w
  rw [hmw] at r1 r2
  generalize w * m = X at r1 r2 ⊢
  generalize 2 ^ (K + 1) = P at s1 s2 r1 r2 hPpos ⊢
  have hbin : binade X (4503599627370496 * P) = ((9 : Nat) : Int) := by
    apply binade_eq_of_bounds _ _ _ (by omega)
    · norm_num; omega
    · norm_num; omega
  unfold toDouble
  have hX : X ≠ 0 := by omega
  have he2 : ((9 : Nat) : Int) - 52 = -((43 : Nat) : Int) := by decide
  have hn2 : ¬ (0 : Int) ≤ -((43 : Nat) : Int) := by decide
  simp only [hX, if_false, hbin, he2, hn2, neg_neg, Int.toNat_ofNat, Dbl.trunc]
  obtain ⟨q1, q2⟩ := roundHalfEven_bounds (X * 2 ^ 43) (4503599627370496 * P) (by omega)
  generalize roundHalfEven (X * 2 ^ 43) (4503599627370496 * P) = m2 at q1 q2 ⊢
  have h43 : (2 : Nat) ^ 43 = 8796093022208 := by norm_num
  rw [h43] at q1 q2 ⊢
  constructor
  · rw [Nat.le_div_iff_mul_le (by decide)]
    by_contra hc
    have hc2 : m2 ≤ 799 * 8796093022208 - 1 := by omega
    have := Nat.mul_le_mul_right (4503599627370496 * P) hc2
    have hexp : (799 * 8796093022208 - 1) * (4503599627370496 * P)
        = (799 * 8796093022208 - 1) * 4503599627370496 * P := by ring
    norm_num at this hexp
    omega
  · have hlt : m2 / 8796093022208 < 801 := by
      rw [Nat.div_lt_iff_lt_mul (by decide)]
      by_contra hc
      have hc2 : 801 * 8796093022208 ≤ m2 := by omega
      have := Nat.mul_le_mul_right (4503599627370496 * P) hc2
      norm_num at this
      omega
    omega

/-- An image no wider than `maxWidth` keeps its size: the scale is 1 and both products
are exact (a height of at most 2147483647, the largest a canvas takes). -/
theorem NoAIjsx.initCanvasSize_of_le_maxWidth (w h : Nat) (hw : w ≤ 800)
    (hh : h ≤ 2147483647) :
    NoAIjsx.initCanvasSize w h = (w, h) ∧ NoAIjsx.handleSaveSize w h = (w, h) := by
  have hs : NoAIjsx.scale w = Dbl.ofNat 1 := by
    unfold NoAIjsx.scale NoAIjsx.maxWidth
    have : ¬ w > 800 := by omega
    simp only [this, if_false]
  have h1 : (Dbl.mulNat w (Dbl.ofNat 1)).trunc = w :=
    Dbl.mulNat_one_trunc w (by have : (800 : Nat) < 2 ^ 53 := by norm_num
                               omega)
  have h2 : (Dbl.mulNat h (Dbl.ofNat 1)).trunc = h :=
    Dbl.mulNat_one_trunc h (by have : (2147483647 : Nat) < 2 ^ 53 := by norm_num
                               omega)
  have hw32 : w % 2 ^ 32 = w := Nat.mod_eq_of_lt (by
    have : (800 : Nat) < 2 ^ 32 := by norm_num
    omega)
  have hh32 : h % 2 ^ 32 = h := Nat.mod_eq_of_lt (by
    have : (2147483647 : Nat) < 2 ^ 32 := by norm_num
    omega)
  have hwd : ¬ w > 2147483647 := by omega
  have hhd : ¬ h > 2147483647 := by omega
  unfold NoAIjsx.initCanvasSize NoAIjsx.handleSaveSize canvasDimension toUnsignedLong
  rw [hs, h1, h2, hw32, hh32]
  simp only [hwd, hhd, if_false]
  exact ⟨trivial, trivial⟩

/-- For an image wider than `maxWidth` the canvas width is 799 or 800: it never exceeds
`maxWidth`, and falls one short of it when the product rounds below 800. -/
theorem NoAIjsx.initCanvasSize_width_bounds (w h : Nat) (hw : 800 < w) :
    799 ≤ (NoAIjsx.initCanvasSize w h).1 ∧ (NoAIjsx.initCanvasSize w h).1 ≤ 800 ∧
      (NoAIjsx.handleSaveSize w h).1 = (NoAIjsx.initCanvasSize w h).1 := by
  have hs : NoAIjsx.scale w = Dbl.div 800 w := by
    unfold NoAIjsx.scale NoAIjsx.maxWidth
    have : w > 800 := hw
    simp only [this, if_true]
  obtain ⟨b1, b2⟩ := Dbl.mulNat_div_800_trunc w hw
  have hmod : (Dbl.mulNat w (Dbl.div 800 w)).trunc % 2 ^ 32 =
      (Dbl.mulNat w (Dbl.div 800 w)).trunc := Nat.mod_eq_of_lt (by
    have : (800 : Nat) < 2 ^ 32 := by norm_num
    omega)
  have hd : ¬ (Dbl.mulNat w (Dbl.div 800 w)).trunc > 2147483647 := by omega
  unfold NoAIjsx.initCanvasSize NoAIjsx.handleSaveSize canvasDimension toUnsignedLong
  simp only [hs, hmod, hd, if_false]
  exact ⟨b1, b2, trivial⟩

/-- For the specification's scenario the sizing gives 800 by 400 with scale 0.8 (the
number 0x1.999999999999ap-1), in the editor and in `handleSave`; a 640 by 480 image,
narrower than the limit, keeps its size. -/
theorem canvasSize_scenarios :
    NoAIjsx.scale 1000 = ⟨7205759403792794, -53⟩ ∧
      NoAIjsx.initCanvasSize 1000 500 = (800, 400) ∧
      NoAIjsx.handleSaveSize 1000 500 = (800, 400) ∧
      NoAIjsx.initCanvasSize 640 480 = (640, 480) ∧
      NoAIjsx.handleSaveSize 640 480 = (640, 480) := by
  decide

/-- C10 (the code at the failing input): for a source image 1078 wide and 539 high the
scale `800 / 1078` is the number 0x1.7bf6803ccb47bp-1, the products `1078 * scale` and
`539 * scale` are 0x1.8ffffffffffffp+9 and 0x1.8ffffffffffffp+8, just below 800 and
400, and the canvas, whose dimensions are integers, gets the size 799 by 399, in the
editor and in `handleSave`, not 800 by 400. -/
theorem C10_canvas_size_1078_by_539 :
    NoAIjsx.scale 1078 = ⟨6684377925596283, -53⟩ ∧
      Dbl.mulNat 1078 (NoAIjsx.scale 1078) = ⟨7036874417766399, -43⟩ ∧
      Dbl.mulNat 539 (NoAIjsx.scale 1078) = ⟨7036874417766399, -44⟩ ∧
      NoAIjsx.initCanvasSize 1078 539 = (799, 399) ∧
      NoAIjsx.handleSaveSize 1078 539 = (799, 399) := by
  decide

/-! ## The image editor -/

section EditorFacts

variable {α : Type}

theorem overChannel_transparent (d : Nat) : overChannel 0 d 0 = d := by
  unfold overChannel
  omega

theorem overChannel_opaque (s d : Nat) : overChannel s d 255 = s := by
  unfold overChannel
  omega

/-- A transparent pixel drawn on a pixel leaves it as it is. -/
theorem Pixel.transparent_over (d : Pixel) : Pixel.transparent.over d = d := by
  cases d
  simp [Pixel.over, Pixel.transparent, overChannel_transparent]

/-- A fully opaque pixel drawn on a pixel replaces it. -/
theorem Pixel.over_of_opaque (s d : Pixel) (h : s.a = 255) : s.over d = s := by
  cases s
  simp only at h
  subst h
  simp [Pixel.over, overChannel_opaque]

/-- Drawing a layer that is transparent everywhere inside its bounds changes nothing. -/
theorem drawOver_of_isTransparent (src dst : Layer) (h : src.isTransparent) :
    drawOver src dst = dst := by
  cases dst with
  | mk w ht px =>
    unfold drawOver
    simp only [Layer.mk.injEq, true_and]
    funext x y
    split
    · rename_i hb
      rw [h x hb.1 y hb.2, Pixel.transparent_over]
    · rfl

theorem Layer.blank_isTransparent (w h : Nat) : (Layer.blank w h).isTransparent := by
  intro x _ y _
  rfl

/-- Under the filter 'none' a layer is drawn as it is. -/
theorem applyCtxFilter_none (R : Renderer α) (src : Layer) :
    applyCtxFilter R "none" src = src := by
  unfold applyCtxFilter
  simp

/-- What `handleSave` composes: the filtered base image on the blank temporary canvas,
and on top of it the overlay canvas as it is, when there is one; with an overlay canvas
of zero width or height drawing it throws. -/
theorem NoAIjsx.handleSaveCanvas_eq (R : Renderer α) (s : NoAIjsx.EditorState α)
    (img : SourceImage) (himg : s.imageSrc = some img) :
    NoAIjsx.handleSaveCanvas R s =
      match s.canvas with
      | some overlay =>
          if overlay.width = 0 ∨ overlay.height = 0 then .error invalidStateError
          else .ok (some (drawOver overlay (NoAIjsx.filteredBase R img s.filter)))
      | none => .ok (some (NoAIjsx.filteredBase R img s.filter)) := by
  unfold NoAIjsx.handleSaveCanvas NoAIjsx.filteredBase
  rw [himg]
  cases s.canvas with
  | none => simp [Ctx2D.drawImage, Ctx2D.setFilter]
  | some overlay =>
    by_cases hz : overlay.width = 0 ∨ overlay.height = 0
    · simp [Ctx2D.drawCanvas, hz]
    · simp [Ctx2D.drawCanvas, hz, Ctx2D.drawImage, Ctx2D.setFilter, applyCtxFilter_none]

/-- With an overlay canvas that has area, `handleSave` composes the overlay over the
filtered base. -/
theorem NoAIjsx.handleSaveCanvas_of_area (R : Renderer α) (s : NoAIjsx.EditorState α)
    (img : SourceImage) (overlay : Layer) (himg : s.imageSrc = some img)
    (hov : s.canvas = some overlay) (hw : 0 < overlay.width) (hh : 0 < overlay.height) :
    NoAIjsx.handleSaveCanvas R s =
      .ok (some (drawOver overlay (NoAIjsx.filteredBase R img s.filter))) := by
  rw [NoAIjsx.handleSaveCanvas_eq R s img himg, hov]
  have hz : ¬ (overlay.width = 0 ∨ overlay.height = 0) := by omega
  simp only [hz, if_false]

/-- With an overlay canvas of zero width or height, `handleSave` throws before it calls
`onSave`. -/
theorem NoAIjsx.handleSave_throws (R : Renderer α) (s : NoAIjsx.EditorState α)
    (img : SourceImage) (overlay : Layer) (himg : s.imageSrc = some img)
    (hov : s.canvas = some overlay) (hz : overlay.width = 0 ∨ overlay.height = 0) :
    NoAIjsx.handleSaveCanvas R s = .error invalidStateError ∧
      NoAIjsx.handleSave R s = .error invalidStateError := by
  have h : NoAIjsx.handleSaveCanvas R s = .error invalidStateError := by
    rw [NoAIjsx.handleSaveCanvas_eq R s img himg, hov]
    simp only [hz, if_true]
  refine ⟨h, ?_⟩
  unfold NoAIjsx.handleSave
  rw [h]

/-- With an overlay that is absent, or transparent with area, `handleSave` passes to
`onSave` the base image with only the filter applied. -/
theorem NoAIjsx.handleSave_of_no_strokes (R : Renderer α) (s : NoAIjsx.EditorState α)
    (img : SourceImage) (himg : s.imageSrc = some img)
    (hov : ∀ c, s.canvas = some c → c.isTransparent ∧ 0 < c.width ∧ 0 < c.height) :
    NoAIjsx.handleSave R s = .ok (some (NoAIjsx.applyFilterOnly R img s.filter)) := by
  unfold NoAIjsx.handleSave
  cases hc : s.canvas with
  | none =>
    rw [NoAIjsx.handleSaveCanvas_eq R s img himg, hc]
    rfl
  | some overlay =>
    obtain ⟨ht, hw, hh⟩ := hov overlay hc
    rw [NoAIjsx.handleSaveCanvas_of_area R s img overlay himg hc hw hh,
      drawOver_of_isTransparent overlay _ ht]
    rfl

/-- Loading an image leaves the image in place, a blank overlay of the constrained size
and an empty path, and keeps `filter` and `isDrawing`. -/
theorem NoAIjsx.loadImage_eq (s : NoAIjsx.EditorState α) (img : SourceImage) :
    NoAIjsx.loadImage s img =
      { imageSrc := some img, filter := s.filter, isDrawing := s.isDrawing,
        canvas := some (Layer.blank (NoAIjsx.initCanvasSize img.width img.height).1
                          (NoAIjsx.initCanvasSize img.width img.height).2),
        context := some { path := [], closed := false } } := by
  unfold NoAIjsx.loadImage NoAIjsx.handleFileChange NoAIjsx.initCanvas
  rfl

/-- Choosing filters changes neither the image nor the overlay. -/
theorem NoAIjsx.foldl_setFilter (fs : List String) :
    ∀ s : NoAIjsx.EditorState α,
      (fs.foldl NoAIjsx.setFilter s).imageSrc = s.imageSrc ∧
      (fs.foldl NoAIjsx.setFilter s).canvas = s.canvas ∧
      (fs.foldl NoAIjsx.setFilter s).filter = (fs.getLast?).getD s.filter := by
  induction fs with
  | nil => intro s; simp
  | cons f fs ih =>
    intro s
    obtain ⟨h1, h2, h3⟩ := ih (NoAIjsx.setFilter s f)
    refine ⟨h1, h2, ?_⟩
    rw [List.foldl_cons, h3]
    cases fs with
    | nil => simp [NoAIjsx.setFilter]
    | cons g gs =>
      rw [List.getLast?_cons_cons, List.getLast?_eq_getLast _ (List.cons_ne_nil g gs)]
      rfl

end EditorFacts

/-- The thin draft: its overlay canvas is 800 by 0, transparent for want of pixels, and
saving it throws. -/
theorem NoAIjsx.thinEditor_facts :
    NoAIjsx.thinEditor.imageSrc = some NoAIjsx.thinImage ∧
      NoAIjsx.thinEditor.canvas = some (Layer.blank 800 0) ∧
      NoAIjsx.handleSaveCanvas NoAIjsx.sampleRenderer NoAIjsx.thinEditor =
        .error invalidStateError ∧
      NoAIjsx.handleSave NoAIjsx.sampleRenderer NoAIjsx.thinEditor =
        .error invalidStateError := by
  have hov : NoAIjsx.thinEditor.canvas = some (Layer.blank 800 0) := by
    have hsize : NoAIjsx.initCanvasSize 2000 1 = (800, 0) := by decide
    show some (Layer.blank (NoAIjsx.initCanvasSize 2000 1).1
      (NoAIjsx.initCanvasSize 2000 1).2) = _
    rw [hsize]
  obtain ⟨h1, h2⟩ := NoAIjsx.handleSave_throws NoAIjsx.sampleRenderer NoAIjsx.thinEditor
    NoAIjsx.thinImage (Layer.blank 800 0) rfl hov (Or.inr rfl)
  exact ⟨rfl, hov, h1, h2⟩

/-- The stroked draft is what the handlers produce from the loaded editor: mouse down at
(5, 5), mouse move to (6, 6), mouse up, and the filter button 'B&W'. -/
theorem NoAIjsx.strokedEditor_drawn :
    ∃ s1 s2, NoAIjsx.startDrawing NoAIjsx.loadedEditor (.mouse 5 5) = .ok s1 ∧
      NoAIjsx.draw NoAIjsx.sampleRenderer s1 (.mouse 6 6) = .ok s2 ∧
      NoAIjsx.setFilter (NoAIjsx.stopDrawing s2) "grayscale(100%) contrast(120%)" =
        NoAIjsx.strokedEditor := by
  have hsize : NoAIjsx.initCanvasSize 1000 500 = (800, 400) := by decide
  refine ⟨_, _, rfl, rfl, ?_⟩
  show ({ imageSrc := some NoAIjsx.whiteImage, filter := "grayscale(100%) contrast(120%)",
          isDrawing := false,
          canvas := some (NoAIjsx.sampleRenderer.strokePath [(5, 5), (6, 6)]
            (Layer.blank (NoAIjsx.initCanvasSize 1000 500).1
              (NoAIjsx.initCanvasSize 1000 500).2)),
          context := some { path := [(5, 5), (6, 6)], closed := true } } :
        NoAIjsx.EditorState ℚ) = _
  rw [hsize]
  rfl

/-- C11 (the code at the failing input, and where the claim holds): for the draft of a
2000 by 1 image with zero strokes the overlay canvas is 800 by 0, and `handleSave`
throws when it draws that canvas and never calls `onSave`, as it does for every draft
whose overlay canvas has zero width or height.  For every other draft with zero
strokes, the overlay absent or transparent with area, the image `handleSave` passes to
`onSave` is the base image scaled to the constrained size with the active filter
applied and nothing else; in particular after loading an image whose constrained size
has area and choosing filters. -/
theorem C11_flatten_zero_strokes :
    (NoAIjsx.thinEditor.canvas = some (Layer.blank 800 0) ∧
      (Layer.blank 800 0).isTransparent ∧
      NoAIjsx.handleSave NoAIjsx.sampleRenderer NoAIjsx.thinEditor =
        .error invalidStateError) ∧
    (∀ (α : Type) (R : Renderer α) (s : NoAIjsx.EditorState α) (img : SourceImage)
        (overlay : Layer),
      s.imageSrc = some img → s.canvas = some overlay →
      (overlay.width = 0 ∨ overlay.height = 0) →
        NoAIjsx.handleSave R s = .error invalidStateError) ∧
    (∀ (α : Type) (R : Renderer α) (s : NoAIjsx.EditorState α) (img : SourceImage),
      s.imageSrc = some img →
      (∀ c, s.canvas = some c → c.isTransparent ∧ 0 < c.width ∧ 0 < c.height) →
        NoAIjsx.handleSave R s = .ok (some (NoAIjsx.applyFilterOnly R img s.filter))) ∧
    (∀ (α : Type) (R : Renderer α) (s0 : NoAIjsx.EditorState α) (img : SourceImage)
        (chosen : List String),
      0 < (NoAIjsx.initCanvasSize img.width img.height).1 →
      0 < (NoAIjsx.initCanvasSize img.width img.height).2 →
      NoAIjsx.handleSave R (chosen.foldl NoAIjsx.setFilter (NoAIjsx.loadImage s0 img)) =
        .ok (some (NoAIjsx.applyFilterOnly R img ((chosen.getLast?).getD s0.filter)))) := by
  refine ⟨⟨NoAIjsx.thinEditor_facts.2.1, Layer.blank_isTransparent 800 0,
      NoAIjsx.thinEditor_facts.2.2.2⟩,
    fun α R s img overlay himg hov hz => (NoAIjsx.handleSave_throws R s img overlay himg hov hz).2,
    fun α R s img himg hov => NoAIjsx.handleSave_of_no_strokes R s img himg hov, ?_⟩
  intro α R s0 img chosen hw hh
  obtain ⟨h1, h2, h3⟩ := NoAIjsx.foldl_setFilter chosen (NoAIjsx.loadImage s0 img)
  have e1 : (NoAIjsx.loadImage s0 img).imageSrc = some img := by rw [NoAIjsx.loadImage_eq]
  have e2 : (NoAIjsx.loadImage s0 img).canvas =
      some (Layer.blank (NoAIjsx.initCanvasSize img.width img.height).1
        (NoAIjsx.initCanvasSize img.width img.height).2) := by rw [NoAIjsx.loadImage_eq]
  have e3 : (NoAIjsx.loadImage s0 img).filter = s0.filter := by rw [NoAIjsx.loadImage_eq]
  have h := NoAIjsx.handleSave_of_no_strokes R
    (chosen.foldl NoAIjsx.setFilter (NoAIjsx.loadImage s0 img)) img (h1.trans e1) (by
      intro c hc
      rw [h2, e2] at hc
      simp only [Option.some.injEq] at hc
      rw [← hc]
      exact ⟨Layer.blank_isTransparent _ _, hw, hh⟩)
  rw [h, h3, e3]

/-- C11 at concrete inputs: the editor with the 1000 by 500 image loaded, the filter
'B&W' chosen and nothing drawn, saved with the sample renderer; and the thin draft,
whose overlay has no height. -/
theorem C11_flatten_zero_strokes_witness :
    NoAIjsx.handleSave NoAIjsx.sampleRenderer
        ([("grayscale(100%) contrast(120%)" : String)].foldl NoAIjsx.setFilter
          (NoAIjsx.loadImage (NoAIjsx.EditorState.initial ℚ) NoAIjsx.whiteImage)) =
      .ok (some (NoAIjsx.applyFilterOnly NoAIjsx.sampleRenderer NoAIjsx.whiteImage
        "grayscale(100%) contrast(120%)")) ∧
    NoAIjsx.handleSave NoAIjsx.sampleRenderer NoAIjsx.thinEditor =
      .error invalidStateError :=
  ⟨C11_flatten_zero_strokes.2.2.2 ℚ NoAIjsx.sampleRenderer (NoAIjsx.EditorState.initial ℚ)
      NoAIjsx.whiteImage ["grayscale(100%) contrast(120%)"] (by decide) (by decide),
   C11_flatten_zero_strokes.2.1 ℚ NoAIjsx.sampleRenderer NoAIjsx.thinEditor
      NoAIjsx.thinImage (Layer.blank 800 0) rfl NoAIjsx.thinEditor_facts.2.1 (Or.inr rfl)⟩

/-- With an overlay canvas that has area, for every filter the saved canvas is the
overlay as it is over the filtered base, and wherever the overlay is opaque the saved
pixel is the overlay's own. -/
theorem NoAIjsx.handleSaveCanvas_layers {α : Type} (R : Renderer α)
    (s : NoAIjsx.EditorState α) (img : SourceImage) (overlay : Layer)
    (himg : s.imageSrc = some img) (hov : s.canvas = some overlay)
    (hw : 0 < overlay.width) (hh : 0 < overlay.height) :
    NoAIjsx.handleSaveCanvas R s =
        .ok (some (drawOver overlay (NoAIjsx.filteredBase R img s.filter))) ∧
      (∀ filter : String,
        NoAIjsx.handleSaveCanvas R (NoAIjsx.setFilter s filter) =
          .ok (some (drawOver overlay (NoAIjsx.filteredBase R img filter)))) ∧
      (∀ (filter : String) (out : Layer) (x y : Nat),
        NoAIjsx.handleSaveCanvas R (NoAIjsx.setFilter s filter) = .ok (some out) →
        x < overlay.width → y < overlay.height → (overlay.px x y).a = 255 →
          out.px x y = overlay.px x y) := by
  have hgen : ∀ filter : String,
      NoAIjsx.handleSaveCanvas R (NoAIjsx.setFilter s filter) =
        .ok (some (drawOver overlay (NoAIjsx.filteredBase R img filter))) :=
    fun filter =>
      NoAIjsx.handleSaveCanvas_of_area R (NoAIjsx.setFilter s filter) img overlay himg hov hw hh
  refine ⟨NoAIjsx.handleSaveCanvas_of_area R s img overlay himg hov hw hh, hgen, ?_⟩
  intro filter out x y hout hx hy ha
  rw [hgen filter] at hout
  simp only [Except.ok.injEq, Option.some.injEq] at hout
  rw [← hout]
  show (if x < overlay.width ∧ y < overlay.height then _ else _) = _
  rw [if_pos ⟨hx, hy⟩]
  exact Pixel.over_of_opaque _ _ ha

/-- C12 (the code at the failing input, and where the claim holds): for the draft of a
2000 by 1 image, whose overlay canvas is 800 by 0, `handleSave` draws the base image,
sets the filter back to 'none', and throws when it draws the overlay, so nothing is
composed.  For every draft whose overlay canvas has area, `handleSave` composes two
layers in this order: the base image drawn with the active filter, then the overlay
canvas drawn on top with the filter set back to 'none', that is, as it is; so for
every choice of filter the overlay enters the result unfiltered, and wherever the
overlay is opaque the result is the overlay's own pixel. -/
theorem C12_two_layers_overlay_unfiltered :
    (NoAIjsx.thinEditor.canvas = some (Layer.blank 800 0) ∧
      ∀ filter : String,
        NoAIjsx.handleSaveCanvas NoAIjsx.sampleRenderer
          (NoAIjsx.setFilter NoAIjsx.thinEditor filter) = .error invalidStateError) ∧
    (∀ (α : Type) (R : Renderer α) (s : NoAIjsx.EditorState α) (img : SourceImage)
        (overlay : Layer), s.imageSrc = some img → s.canvas = some overlay →
      0 < overlay.width → 0 < overlay.height →
      NoAIjsx.handleSaveCanvas R s =
        .ok (some (drawOver overlay (NoAIjsx.filteredBase R img s.filter))) ∧
      (∀ filter : String,
        NoAIjsx.handleSaveCanvas R (NoAIjsx.setFilter s filter) =
          .ok (some (drawOver overlay (NoAIjsx.filteredBase R img filter)))) ∧
      (∀ (filter : String) (out : Layer) (x y : Nat),
        NoAIjsx.handleSaveCanvas R (NoAIjsx.setFilter s filter) = .ok (some out) →
        x < overlay.width → y < overlay.height → (overlay.px x y).a = 255 →
          out.px x y = overlay.px x y)) := by
  refine ⟨⟨NoAIjsx.thinEditor_facts.2.1, fun filter => ?_⟩,
    fun α R s img overlay himg hov hw hh =>
      NoAIjsx.handleSaveCanvas_layers R s img overlay himg hov hw hh⟩
  exact (NoAIjsx.handleSave_throws NoAIjsx.sampleRenderer
    (NoAIjsx.setFilter NoAIjsx.thinEditor filter) NoAIjsx.thinImage (Layer.blank 800 0) rfl
    NoAIjsx.thinEditor_facts.2.1 (Or.inr rfl)).1

/-- C12 at a concrete input: the stroked draft, with the filter 'B&W' active and an
opaque pink stroke pixel at (5, 5).  Saved with the sample renderer it composes the
stroked overlay over the filtered base, and under the filter 'Warm' as under 'B&W' the
saved pixel at (5, 5) is the stroke's pink, while the pixel at (0, 0), where nothing is
drawn, is the filtered base. -/
theorem C12_two_layers_overlay_unfiltered_witness :
    NoAIjsx.strokedEditor.filter = "grayscale(100%) contrast(120%)" ∧
    (NoAIjsx.strokedOverlay.px 5 5).a = 255 ∧
    NoAIjsx.handleSaveCanvas NoAIjsx.sampleRenderer NoAIjsx.strokedEditor =
      .ok (some (drawOver NoAIjsx.strokedOverlay
        (NoAIjsx.filteredBase NoAIjsx.sampleRenderer NoAIjsx.whiteImage
          "grayscale(100%) contrast(120%)"))) ∧
    (drawOver NoAIjsx.strokedOverlay
        (NoAIjsx.filteredBase NoAIjsx.sampleRenderer NoAIjsx.whiteImage
          "sepia(40%) contrast(110%) brightness(110%)")).px 5 5 = NoAIjsx.strokePink ∧
    (drawOver NoAIjsx.strokedOverlay
        (NoAIjsx.filteredBase NoAIjsx.sampleRenderer NoAIjsx.whiteImage
          "grayscale(100%) contrast(120%)")).px 5 5 = NoAIjsx.strokePink :=
  ⟨rfl, by decide,
   (C12_two_layers_overlay_unfiltered.2 ℚ NoAIjsx.sampleRenderer NoAIjsx.strokedEditor
      NoAIjsx.whiteImage NoAIjsx.strokedOverlay rfl rfl (by decide) (by decide)).1,
   (C12_two_layers_overlay_unfiltered.2 ℚ NoAIjsx.sampleRenderer NoAIjsx.strokedEditor
      NoAIjsx.whiteImage NoAIjsx.strokedOverlay rfl rfl (by decide) (by decide)).2.2
      "sepia(40%) contrast(110%) brightness(110%)" _ 5 5
      ((C12_two_layers_overlay_unfiltered.2 ℚ NoAIjsx.sampleRenderer NoAIjsx.strokedEditor
        NoAIjsx.whiteImage NoAIjsx.strokedOverlay rfl rfl (by decide) (by decide)).2.1 _)
      (by decide) (by decide) (by decide),
   (C12_two_layers_overlay_unfiltered.2 ℚ NoAIjsx.sampleRenderer NoAIjsx.strokedEditor
      NoAIjsx.whiteImage NoAIjsx.strokedOverlay rfl rfl (by decide) (by decide)).2.2
      "grayscale(100%) contrast(120%)" _ 5 5
      ((C12_two_layers_overlay_unfiltered.2 ℚ NoAIjsx.sampleRenderer NoAIjsx.strokedEditor
        NoAIjsx.whiteImage NoAIjsx.strokedOverlay rfl rfl (by decide) (by decide)).2.1 _)
      (by decide) (by decide) (by decide)⟩

/-- C13: a point arriving through `draw` while no stroke is open (`isDrawing` false) is
a no-op: `draw` returns the editor state it was given, with the same overlay canvas,
path and drawing flag, for every point and every editor state. -/
theorem C13_draw_without_open_stroke (α : Type) [Sub α] [Mul α] [Div α] [NatCast α]
    (R : Renderer α) (s : NoAIjsx.EditorState α) (e : PointerInput α)
    (h : s.isDrawing = false) : NoAIjsx.draw R s e = .ok s := by
  unfold NoAIjsx.draw
  simp [h]

/-- C13 at a concrete input: a mouse move over the loaded editor before any mouse down. -/
theorem C13_draw_without_open_stroke_witness :
    NoAIjsx.draw NoAIjsx.sampleRenderer NoAIjsx.loadedEditor (.mouse 5 5) =
      .ok NoAIjsx.loadedEditor :=
  C13_draw_without_open_stroke ℚ NoAIjsx.sampleRenderer NoAIjsx.loadedEditor (.mouse 5 5) rfl

/-- In exact arithmetic the touch mapping sends the far corner of the displayed
rectangle to the far corner of the canvas bitmap. -/
theorem NoAIjsx.getCoordinates_far_corner (canvas : Layer) (rect : Rect ℚ)
    (hw : rect.width ≠ 0) (hh : rect.height ≠ 0) :
    NoAIjsx.getCoordinates (some canvas)
        (.touch (rect.left + rect.width) (rect.top + rect.height) rect) =
      .ok ((canvas.width : ℚ), (canvas.height : ℚ)) := by
  unfold NoAIjsx.getCoordinates
  simp only [add_sub_cancel_left]
  rw [mul_div_cancel₀ _ hw, mul_div_cancel₀ _ hh]

/-- C14: for a touch at client position (cx, cy) on a canvas displayed in the rectangle
with origin (left, top) and size (dw, dh) and with a bitmap of bw by bh,
`getCoordinates` returns ((cx - left) * (bw / dw), (cy - top) * (bh / dh)), in whatever
arithmetic the numbers have: the x factor is made of the two widths only and the y
factor of the two heights only.  In exact arithmetic, for a non-zero displayed size,
the far corner of the rectangle maps to (bw, bh); and on a bitmap of 800 by 400 shown
400 by 100 at (10, 20), the touch at (110, 45) maps to (200, 100), with factors 2
and 4. -/
theorem C14_getCoordinates_touch :
    (∀ (α : Type) [Sub α] [Mul α] [Div α] [NatCast α] (canvas : Layer) (cx cy : α)
        (rect : Rect α),
      NoAIjsx.getCoordinates (some canvas) (.touch cx cy rect) =
        .ok ((cx - rect.left) * ((canvas.width : α) / rect.width),
             (cy - rect.top) * ((canvas.height : α) / rect.height))) ∧
    (∀ (canvas : Layer) (rect : Rect ℚ), rect.width ≠ 0 → rect.height ≠ 0 →
      NoAIjsx.getCoordinates (some canvas)
          (.touch (rect.left + rect.width) (rect.top + rect.height) rect) =
        .ok ((canvas.width : ℚ), (canvas.height : ℚ))) ∧
    NoAIjsx.getCoordinates (some (Layer.blank 800 400)) (.touch 110 45 NoAIjsx.sampleRect) =
      .ok ((200 : ℚ), (100 : ℚ)) := by
  refine ⟨fun α _ _ _ _ canvas cx cy rect => rfl, NoAIjsx.getCoordinates_far_corner, ?_⟩
  unfold NoAIjsx.getCoordinates NoAIjsx.sampleRect Layer.blank
  norm_num

/-- C14 at a concrete input: the far corner (410, 120) of the sample rectangle maps to
the far corner (800, 400) of the bitmap. -/
theorem C14_getCoordinates_touch_witness :
    NoAIjsx.getCoordinates (some (Layer.blank 800 400))
        (.touch (NoAIjsx.sampleRect.left + NoAIjsx.sampleRect.width)
          (NoAIjsx.sampleRect.top + NoAIjsx.sampleRect.height) NoAIjsx.sampleRect) =
      .ok (((Layer.blank 800 400).width : ℚ), ((Layer.blank 800 400).height : ℚ)) :=
  C14_getCoordinates_touch.2.1 (Layer.blank 800 400) NoAIjsx.sampleRect
    (by unfold NoAIjsx.sampleRect; norm_num) (by unfold NoAIjsx.sampleRect; norm_num)

/-- C19 (the claim fails): in an editor where the 1000 by 500 image was loaded and the
filter 'B&W' chosen, Reset followed by loading another image gives a draft whose filter
is still 'B&W', not 'none'. -/
theorem C19_filter_survives_reset :
    (NoAIjsx.loadImage
        (NoAIjsx.resetImage
          (NoAIjsx.setFilter NoAIjsx.loadedEditor "grayscale(100%) contrast(120%)"))
        NoAIjsx.blackImage).filter = "grayscale(100%) contrast(120%)" ∧
      ("grayscale(100%) contrast(120%)" : String) ≠ "none" ∧
      ("B&W", "grayscale(100%) contrast(120%)") ∈ NoAIjsx.filters := by
  refine ⟨rfl, by decide, by decide⟩

/-- C19 (amended): loading an image yields a draft with that image, an empty stroke
layer (a blank overlay canvas of the constrained size and an empty path) and the filter
the editor had before: 'none' in a freshly mounted editor, and after Reset the filter
that was selected, since neither Reset nor loading changes the filter. -/
theorem C19_loadImage_keeps_filter :
    (∀ (α : Type) (s : NoAIjsx.EditorState α) (img : SourceImage),
      (NoAIjsx.loadImage s img).imageSrc = some img ∧
      (NoAIjsx.loadImage s img).canvas =
        some (Layer.blank (NoAIjsx.initCanvasSize img.width img.height).1
          (NoAIjsx.initCanvasSize img.width img.height).2) ∧
      (NoAIjsx.loadImage s img).context = some { path := [], closed := false } ∧
      (NoAIjsx.loadImage s img).filter = s.filter) ∧
    (∀ (α : Type) (img : SourceImage),
      (NoAIjsx.loadImage (NoAIjsx.EditorState.initial α) img).filter = "none") ∧
    (∀ (α : Type) (s : NoAIjsx.EditorState α), (NoAIjsx.resetImage s).filter = s.filter) ∧
    (∀ (α : Type) (s : NoAIjsx.EditorState α) (img : SourceImage),
      (NoAIjsx.loadImage (NoAIjsx.resetImage s) img).filter = s.filter) := by
  refine ⟨?_, ?_, ?_, ?_⟩
  · intro α s img
    rw [NoAIjsx.loadImage_eq]
    exact ⟨rfl, rfl, rfl, rfl⟩
  · intro α img
    rw [NoAIjsx.loadImage_eq]
    rfl
  · intro α s
    rfl
  · intro α s img
    rw [NoAIjsx.loadImage_eq]
    rfl

/-! ## Handlers without a user, and what is shown -/

theorem NoAIjsx.handlePost_no_user (db : Option Firestore) (imageDataUrl : String) :
    NoAIjsx.handlePost db none imageDataUrl = none := by
  unfold NoAIjsx.handlePost
  cases db <;> rfl

theorem NoAIjsx.toggleLike_no_user (db : Option Firestore) (post : NoAIjsx.Post) :
    NoAIjsx.toggleLike db none post = none := by
  unfold NoAIjsx.toggleLike
  cases db <;> simp

theorem NoAIjs.handlePost_js_no_user (db : Option Firestore) (userId : Option String)
    (postCount : Nat) (pick : Fin 3) (h : NoAIjs.truthyId userId = false) :
    NoAIjs.handlePost db userId postCount pick = none := by
  unfold NoAIjs.handlePost
  cases db <;> cases userId <;> simp_all

theorem NoAIjs.handleLikeToggle_no_user (db : Option Firestore) (userId : Option String)
    (post : NoAIjs.Post) (h : NoAIjs.truthyId userId = false) :
    NoAIjs.handleLikeToggle db userId post = none := by
  unfold NoAIjs.handleLikeToggle
  cases db <;> cases userId <;> simp_all

/-- C16 (the claim fails): with no user and a non-empty post list the posts are not
shown.  The `Feed` of `NoAI.js`, holding one post and not loading, shows "Awaiting
authentication..."; `NoAI.jsx` in its initial state, whose feed holds the three seed
posts, shows the loading text, and after a signed-out auth event the login screen. -/
theorem C16_feed_not_shown_without_user :
    NoAIjs.renderFeed none { posts := [NoAIjs.samplePost], loading := false } =
        .awaitingAuth ∧
      (NoAIjsx.AppState.initial []).user = none ∧
      NoAIjsx.displayPosts (NoAIjsx.AppState.initial []).feedType
          (NoAIjsx.feedOf 1700000000000 (NoAIjsx.AppState.initial []))
          (NoAIjsx.AppState.initial []).following (NoAIjsx.AppState.initial []).user =
        NoAIjsx.MOCK_POSTS ∧
      NoAIjsx.render (NoAIjsx.AppState.initial []) 1700000000000 = .loading ∧
      NoAIjsx.render (NoAIjsx.onAuthStateChanged (NoAIjsx.AppState.initial []) none)
          1700000000000 = .login := by
  refine ⟨by decide, rfl, by decide, by decide, by decide⟩

/-- C16 (amended): when the user identifier is absent the feed is not shown.  The `Feed`
of `NoAI.js` shows "Awaiting authentication..." whatever its post list.  `NoAI.jsx`
starts with no user and the view 'login', an auth event without a user sets the view
to 'login', and whenever the view is 'login' it shows the loading text or the login
screen.  With a user present both show the posts: `Feed` lists a non-empty post list
once loaded, and `NoAI.jsx` shows the feed in the view 'feed'. -/
theorem C16_no_user_no_feed :
    (∀ (userId : Option String) (fs : NoAIjs.FeedState), NoAIjs.truthyId userId = false →
      NoAIjs.renderFeed userId fs = .awaitingAuth) ∧
    (∀ saved : List String,
      (NoAIjsx.AppState.initial saved).user = none ∧
      (NoAIjsx.AppState.initial saved).view = .login) ∧
    (∀ s : NoAIjsx.AppState, (NoAIjsx.onAuthStateChanged s none).view = .login) ∧
    (∀ (s : NoAIjsx.AppState) (now : Int), s.view = .login →
      NoAIjsx.render s now = .loading ∨ NoAIjsx.render s now = .login) ∧
    (∀ (userId : String) (fs : NoAIjs.FeedState), userId ≠ "" → fs.loading = false →
      fs.posts ≠ [] → NoAIjs.renderFeed (some userId) fs = .list fs.posts) ∧
    (∀ (s : NoAIjsx.AppState) (now : Int) (u : NoAIjsx.User), s.user = some u →
      s.isLoading = false → s.view = .feed →
      NoAIjsx.render s now =
        .feed (NoAIjsx.displayPosts s.feedType (NoAIjsx.feedOf now s) s.following s.user)) := by
  refine ⟨?_, fun saved => ⟨rfl, rfl⟩, fun s => rfl, ?_, ?_, ?_⟩
  · intro userId fs h
    unfold NoAIjs.renderFeed
    simp [h]
  · intro s now h
    unfold NoAIjsx.render
    rw [h]
    cases s.isLoading
    · right; rfl
    · left; rfl
  · intro userId fs hne hl hp
    unfold NoAIjs.renderFeed NoAIjs.truthyId
    have hlen : fs.posts.length ≠ 0 := by
      intro hc
      exact hp (List.length_eq_zero.1 hc)
    simp [hne, hl, hlen]
  · intro s now u hu hl hv
    unfold NoAIjsx.render NoAIjsx.feedOf
    simp [hu, hl, hv]

/-- C16 (amended) at concrete inputs: a `Feed` without a user holding one post; the
initial state of `NoAI.jsx`; a `Feed` with a user; and the signed-in state of
`NoAI.jsx`. -/
theorem C16_no_user_no_feed_witness :
    NoAIjs.renderFeed none { posts := [NoAIjs.samplePost], loading := false } =
        .awaitingAuth ∧
    (NoAIjsx.render (NoAIjsx.AppState.initial []) 1700000000000 = .loading ∨
      NoAIjsx.render (NoAIjsx.AppState.initial []) 1700000000000 = .login) ∧
    NoAIjs.renderFeed (some NoAIjs.sampleUid)
        { posts := [NoAIjs.samplePost], loading := false } =
      .list [NoAIjs.samplePost] ∧
    NoAIjsx.render NoAIjsx.signedInState 1700000000000 =
      .feed (NoAIjsx.displayPosts NoAIjsx.signedInState.feedType
        (NoAIjsx.feedOf 1700000000000 NoAIjsx.signedInState)
        NoAIjsx.signedInState.following NoAIjsx.signedInState.user) :=
  ⟨C16_no_user_no_feed.1 none _ rfl,
   C16_no_user_no_feed.2.2.2.1 (NoAIjsx.AppState.initial []) 1700000000000 rfl,
   C16_no_user_no_feed.2.2.2.2.1 NoAIjs.sampleUid
     { posts := [NoAIjs.samplePost], loading := false } (by decide) rfl (by decide),
   C16_no_user_no_feed.2.2.2.2.2 NoAIjsx.signedInState 1700000000000 NoAIjsx.demoUser
     rfl rfl rfl⟩

/-! ## Snapshot deliveries -/

/-- After a non-empty sequence of deliveries the remote posts are those of the last
delivery. -/
theorem NoAIjsx.foldl_onSnapshotNext (snapshots : List (List NoAIjsx.Post))
    (last : List NoAIjsx.Post) :
    ∀ s : NoAIjsx.AppState,
      ((snapshots ++ [last]).foldl NoAIjsx.onSnapshotNext s).realPosts = last := by
  induction snapshots with
  | nil => intro s; rfl
  | cons a rest ih => intro s; exact ih (NoAIjsx.onSnapshotNext s a)

theorem NoAIjs.foldl_feed_onSnapshotNext (snapshots : List (List NoAIjs.Post))
    (last : List NoAIjs.Post) :
    ∀ fs : NoAIjs.FeedState,
      (snapshots ++ [last]).foldl NoAIjs.onSnapshotNext fs =
        { posts := last, loading := false } := by
  induction snapshots with
  | nil => intro fs; rfl
  | cons a rest ih => intro fs; exact ih (NoAIjs.onSnapshotNext fs a)

/-- C17: when the remote stream reports a failure the last good post list is kept.  In
`NoAI.js` the error callback leaves `posts` as it is and changes only the loading flag,
which becomes false; in `NoAI.jsx` the subscription has no error callback and the
state, with its remote posts and merged feed, stays as it is. -/
theorem C17_error_keeps_posts :
    (∀ fs : NoAIjs.FeedState,
      (NoAIjs.onSnapshotError fs).posts = fs.posts ∧
      NoAIjs.onSnapshotError fs = { fs with loading := false }) ∧
    (∀ (snapshots : List (List NoAIjs.Post)) (last : List NoAIjs.Post)
        (fs : NoAIjs.FeedState),
      (NoAIjs.onSnapshotError ((snapshots ++ [last]).foldl NoAIjs.onSnapshotNext fs)).posts
        = last) ∧
    (∀ (s : NoAIjsx.AppState) (now : Int),
      NoAIjsx.onSnapshotError s = s ∧
      (NoAIjsx.onSnapshotError s).realPosts = s.realPosts ∧
      NoAIjsx.feedOf now (NoAIjsx.onSnapshotError s) = NoAIjsx.feedOf now s) := by
  refine ⟨fun fs => ⟨rfl, rfl⟩, ?_, fun s now => ⟨rfl, rfl, rfl⟩⟩
  intro snapshots last fs
  rw [NoAIjs.foldl_feed_onSnapshotNext]
  rfl

/-- C18: the merged feed depends only on the latest snapshot: after every non-empty
sequence of deliveries, from every state, the feed is the merge of the last snapshot
with the seed posts, and nothing of the earlier snapshots is carried over.  After the
deliveries [P1] and [P1, P2], with P1 at t = 10 and P2 at t = 20, the feed holds P1
once and P2 before P1. -/
theorem C18_feed_follows_latest_snapshot :
    (∀ (now : Int) (s : NoAIjsx.AppState) (snapshots : List (List NoAIjsx.Post))
        (last : List NoAIjsx.Post),
      NoAIjsx.feedOf now ((snapshots ++ [last]).foldl NoAIjsx.onSnapshotNext s) =
        NoAIjsx.combinedFeed now last) ∧
    (∀ (now : Int) (s : NoAIjsx.AppState) (snapshot : List NoAIjsx.Post),
      NoAIjsx.feedOf now (NoAIjsx.onSnapshotNext s snapshot) =
        jsSort (NoAIjsx.feedCompare now) (snapshot ++ NoAIjsx.MOCK_POSTS)) ∧
    NoAIjsx.feedOf 1700000000000
        ([[NoAIjsx.postP1], [NoAIjsx.postP1, NoAIjsx.postP2]].foldl NoAIjsx.onSnapshotNext
          NoAIjsx.signedInState) =
      NoAIjsx.MOCK_POSTS ++ [NoAIjsx.postP2, NoAIjsx.postP1] ∧
    (NoAIjsx.feedOf 1700000000000
        ([[NoAIjsx.postP1], [NoAIjsx.postP1, NoAIjsx.postP2]].foldl NoAIjsx.onSnapshotNext
          NoAIjsx.signedInState)).count NoAIjsx.postP1 = 1 ∧
    List.Sublist [NoAIjsx.postP2, NoAIjsx.postP1]
      (NoAIjsx.feedOf 1700000000000
        ([[NoAIjsx.postP1], [NoAIjsx.postP1, NoAIjsx.postP2]].foldl NoAIjsx.onSnapshotNext
          NoAIjsx.signedInState)) := by
  refine ⟨?_, fun now s snapshot => rfl, by decide, by decide, by decide⟩
  intro now s snapshots last
  unfold NoAIjsx.feedOf
  rw [NoAIjsx.foldl_onSnapshotNext]

/-! ## The author of a new post -/

/-- The code units of a string of characters of the Basic Multilingual Plane are the
characters' numbers. -/
theorem flatMap_utf16OfChar_of_bmp (l : List Char) (h : ∀ c ∈ l, c.toNat < 65536) :
    l.flatMap utf16OfChar = l.map Char.toNat := by
  induction l with
  | nil => rfl
  | cons c cs ih =>
    have hc : c.toNat < 65536 := h c (List.mem_cons_self c cs)
    have hcs : ∀ d ∈ cs, d.toNat < 65536 := fun d hd => h d (List.mem_cons_of_mem c hd)
    rw [List.flatMap_cons, ih hcs, List.map_cons]
    unfold utf16OfChar
    rw [if_pos hc]
    rfl

/-- The call `substring(0, n)` gives the first `n` code units. -/
theorem JsString.substring_zero (s : JsString) (n : Nat) :
    (s.substring 0 n).units = s.units.take n := by
  unfold JsString.substring JsString.length
  simp only [Nat.zero_min, Nat.zero_max, List.drop_zero]
  by_cases h : n ≤ s.units.length
  · rw [Nat.min_eq_left h]
  · have h2 : s.units.length ≤ n := by omega
    rw [Nat.min_eq_right h2, List.take_of_length_le h2, List.take_of_length_le (le_refl _)]

/-- The value of `substring(0, 8)` has at most eight code units, and it is the string
itself exactly when the string has at most eight code units. -/
theorem JsString.substring_eight (s : JsString) :
    (s.substring 0 8).length ≤ 8 ∧ (s.substring 0 8 = s ↔ s.length ≤ 8) := by
  have hu := JsString.substring_zero s 8
  refine ⟨?_, ?_, ?_⟩
  · show (s.substring 0 8).units.length ≤ 8
    rw [hu, List.length_take]
    omega
  · intro h
    have h2 : s.units.take 8 = s.units := by rw [← hu, h]
    have h3 := congrArg List.length h2
    rw [List.length_take] at h3
    show s.units.length ≤ 8
    omega
  · intro h
    have h2 : (s.substring 0 8).units = s.units := by
      rw [hu]
      exact List.take_of_length_le h
    cases hs : s.substring 0 8 with
    | mk units0 =>
      rw [hs] at h2
      cases s with
      | mk units1 =>
        simp only at h2
        rw [h2]

/-- For an id of characters of the Basic Multilingual Plane, `substring(0, 8)` is the
string of its first eight characters. -/
theorem JsString.substring_eight_of_bmp (u : String) (h : ∀ c ∈ u.data, c.toNat < 65536) :
    (JsString.ofString u).substring 0 8 = JsString.ofString (u.take 8) := by
  have hu := JsString.substring_zero (JsString.ofString u) 8
  have ht : (u.take 8).data = u.data.take 8 := by rw [String.take_eq]
  have h8 : ∀ c ∈ u.data.take 8, c.toNat < 65536 :=
    fun c hc => h c (List.mem_of_mem_take hc)
  have e : (JsString.ofString (u.take 8)).units = (JsString.ofString u).units.take 8 := by
    unfold JsString.ofString
    dsimp only
    rw [ht, flatMap_utf16OfChar_of_bmp _ h8, flatMap_utf16OfChar_of_bmp _ h, List.map_take]
  generalize (JsString.ofString u).substring 0 8 = x at hu
  generalize JsString.ofString (u.take 8) = y at e
  cases x with
  | mk units0 =>
    cases y with
    | mk units1 =>
      simp only at hu e
      rw [hu, e]

/-- C20 (the claim fails): in `NoAI.js` a signed-in user whose id has 28 characters
appends a post whose `authorId` is the first eight code units of the id, not the id. -/
theorem C20_js_authorId_is_truncated :
    NoAIjs.handlePost (some NoAIjsx.demoDb) (some NoAIjs.sampleUid) 0 0 =
        some { imageUrl := "https://placehold.co/600x400/DCC7C1/9B7D7D?text=Authentic+Moment+1",
               caption := "Human-made moment #1",
               authorId := JsString.ofString "Xk2mP9qR", likes := [] } ∧
      JsString.ofString "Xk2mP9qR" ≠ JsString.ofString NoAIjs.sampleUid := by
  refine ⟨by decide, by decide⟩

/-- C20 (amended): for every signed-in user with a store present, the post that
`handlePost` of `NoAI.jsx` appends has the user's id as `authorId`, so the viewer's own
post passes the 'authorId equals viewer id' test of the following filter.  The post that
`handlePost` of `NoAI.js` appends has as `authorId` the first eight UTF-16 code units of
the user id, which is the id itself exactly when the id has at most eight code units,
and which is the string of the id's first eight characters when all its characters lie
in the Basic Multilingual Plane. -/
theorem C20_authorId_of_new_post :
    (∀ (db : Firestore) (u : NoAIjsx.User) (imageDataUrl : String),
      ∃ np, NoAIjsx.handlePost (some db) (some u) imageDataUrl = some np ∧
        np.authorId = u.uid) ∧
    (∀ (following : List String) (u : NoAIjsx.User) (p : NoAIjsx.Post),
      p.authorId = u.uid → NoAIjsx.keepInFollowing following (some u) p = true) ∧
    (∀ (db : Firestore) (userId : String) (postCount : Nat) (pick : Fin 3), userId ≠ "" →
      ∃ np, NoAIjs.handlePost (some db) (some userId) postCount pick = some np ∧
        np.authorId = (JsString.ofString userId).substring 0 8 ∧
        np.authorId.units = (JsString.ofString userId).units.take 8 ∧
        np.authorId.length ≤ 8 ∧
        (np.authorId = JsString.ofString userId ↔ (JsString.ofString userId).length ≤ 8) ∧
        ((∀ c ∈ userId.data, c.toNat < 65536) →
          np.authorId = JsString.ofString (userId.take 8))) := by
  refine ⟨?_, ?_, ?_⟩
  · intro db u imageDataUrl
    exact ⟨_, rfl, rfl⟩
  · intro following u p h
    exact (NoAIjsx.keepInFollowing_iff following (some u) p).2 (Or.inr ⟨u, rfl, h⟩)
  · intro db userId postCount pick hne
    have hnp : NoAIjs.handlePost (some db) (some userId) postCount pick =
        some { imageUrl := NoAIjs.PLACEHOLDER_IMAGE_URLS.getD pick.val "",
               caption := "Human-made moment #" ++ toString (postCount + 1),
               authorId := (JsString.ofString userId).substring 0 8, likes := [] } := by
      simp [NoAIjs.handlePost, NoAIjs.truthyId, hne]
    refine ⟨_, hnp, ?_, ?_, ?_, ?_, ?_⟩
    · dsimp only
    · dsimp only
      exact JsString.substring_zero _ 8
    · dsimp only
      exact (JsString.substring_eight _).1
    · dsimp only
      exact (JsString.substring_eight _).2
    · dsimp only
      exact JsString.substring_eight_of_bmp userId

/-- C20 (amended) at concrete inputs: the demo user's own post passes the following
filter; a `NoAI.js` user with a 28-character id appends a post whose `authorId` is the
first eight code units of the id; and for the id of eight characters whose first
character takes two code units the stored `authorId` is the first seven characters,
not the eight. -/
theorem C20_authorId_of_new_post_witness :
    NoAIjsx.keepInFollowing [] (some NoAIjsx.demoUser) NoAIjsx.pendingPost = true ∧
    (∃ np, NoAIjs.handlePost (some NoAIjsx.demoDb) (some NoAIjs.sampleUid) 0 0 = some np ∧
      np.authorId = (JsString.ofString NoAIjs.sampleUid).substring 0 8 ∧
      np.authorId.units = (JsString.ofString NoAIjs.sampleUid).units.take 8 ∧
      np.authorId.length ≤ 8 ∧
      (np.authorId = JsString.ofString NoAIjs.sampleUid ↔
        (JsString.ofString NoAIjs.sampleUid).length ≤ 8) ∧
      ((∀ c ∈ NoAIjs.sampleUid.data, c.toNat < 65536) →
        np.authorId = JsString.ofString (NoAIjs.sampleUid.take 8))) ∧
    (JsString.ofString NoAIjs.sampleUid).substring 0 8 = JsString.ofString "Xk2mP9qR" ∧
    NoAIjs.astralUid.length = 8 ∧ (JsString.ofString NoAIjs.astralUid).length = 9 ∧
    (JsString.ofString NoAIjs.astralUid).substring 0 8 = JsString.ofString "😀abcdef" ∧
    (JsString.ofString NoAIjs.astralUid).substring 0 8 ≠
      JsString.ofString (NoAIjs.astralUid.take 8) :=
  ⟨C20_authorId_of_new_post.2.1 [] NoAIjsx.demoUser NoAIjsx.pendingPost rfl,
   C20_authorId_of_new_post.2.2 NoAIjsx.demoDb NoAIjs.sampleUid 0 0 (by decide),
   by decide, by decide, by decide, by decide, by decide⟩

/-! ## Saving leaves the draft as it is -/

/-- C21: flattening is side-effect-free and repeatable: for every draft and renderer,
`handleSave` leaves the editor state as it is, in particular the base image source, the
selected filter and the stroke overlay, and a second call on the state the first one
leaves composes the same canvas and produces the same image. -/
theorem C21_handleSave_leaves_draft :
    ∀ (α : Type) (R : Renderer α) (s : NoAIjsx.EditorState α),
      (NoAIjsx.handleSaveStep R s).1 = s ∧
      (NoAIjsx.handleSaveStep R s).1.imageSrc = s.imageSrc ∧
      (NoAIjsx.handleSaveStep R s).1.filter = s.filter ∧
      (NoAIjsx.handleSaveStep R s).1.canvas = s.canvas ∧
      NoAIjsx.handleSaveCanvas R (NoAIjsx.handleSaveStep R s).1 =
        NoAIjsx.handleSaveCanvas R s ∧
      (NoAIjsx.handleSaveStep R (NoAIjsx.handleSaveStep R s).1).2 =
        (NoAIjsx.handleSaveStep R s).2 ∧
      (NoAIjsx.handleSaveStep R s).2 = NoAIjsx.handleSave R s := by
  intro α R s
  exact ⟨rfl, rfl, rfl, rfl, rfl, rfl, rfl⟩

/-! ## Reachable states of `NoAI.jsx` -/

/-- One event keeps: outside the view 'login' there is a user, and while a `handlePost`
awaits its `addDoc` there is a user. -/
theorem NoAIjsx.Session.step_keeps_user (σ : NoAIjsx.Session) (e : NoAIjsx.AppEvent)
    (h1 : σ.app.view ≠ .login → σ.app.user ≠ none)
    (h2 : 0 < σ.inFlight → σ.app.user ≠ none) :
    ((σ.step e).app.view ≠ .login → (σ.step e).app.user ≠ none) ∧
      (0 < (σ.step e).inFlight → (σ.step e).app.user ≠ none) := by
  cases e with
  | firebaseReady db auth => exact ⟨h1, h2⟩
  | authStateChanged u =>
    cases u with
    | none =>
      refine ⟨fun hv => absurd rfl hv, h2⟩
    | some usr =>
      exact ⟨fun _ => by simp [NoAIjsx.Session.step, NoAIjsx.onAuthStateChanged],
             fun _ => by simp [NoAIjsx.Session.step, NoAIjsx.onAuthStateChanged]⟩
  | snapshot fetchedPosts =>
    have hs : σ.step (.snapshot fetchedPosts) =
        if σ.app.db.isSome && σ.app.user.isSome then
          { σ with app := NoAIjsx.onSnapshotNext σ.app fetchedPosts }
        else σ := rfl
    rw [hs]
    split
    · exact ⟨h1, h2⟩
    · exact ⟨h1, h2⟩
  | setViewClicked v =>
    have hs : σ.step (.setViewClicked v) =
        if NoAIjsx.mainShown σ.app && v != .login then
          { σ with app := { σ.app with view := v } }
        else σ := rfl
    rw [hs]
    split
    · rename_i hc
      have hshown : NoAIjsx.mainShown σ.app = true := by
        simp only [Bool.and_eq_true] at hc
        exact hc.1
      have hview : σ.app.view ≠ .login := by
        unfold NoAIjsx.mainShown at hshown
        simp only [Bool.and_eq_true, bne_iff_ne, ne_eq] at hshown
        exact hshown.2
      exact ⟨fun _ => h1 hview, h2⟩
    · exact ⟨h1, h2⟩
  | setFeedTypeClicked t =>
    have hs : σ.step (.setFeedTypeClicked t) =
        if NoAIjsx.mainShown σ.app then { σ with app := { σ.app with feedType := t } }
        else σ := rfl
    rw [hs]
    split
    · exact ⟨h1, h2⟩
    · exact ⟨h1, h2⟩
  | followClicked dummyId =>
    have hs : σ.step (.followClicked dummyId) =
        if NoAIjsx.mainShown σ.app then
          { σ with app := (NoAIjsx.toggleFollowStep σ.app dummyId).1 }
        else σ := rfl
    rw [hs]
    split
    · exact ⟨h1, h2⟩
    · exact ⟨h1, h2⟩
  | save imageDataUrl =>
    have hs : σ.step (.save imageDataUrl) =
        match NoAIjsx.handlePost σ.app.db σ.app.user imageDataUrl with
        | some _ => { σ with inFlight := σ.inFlight + 1 }
        | none => σ := rfl
    rw [hs]
    split
    · rename_i np hnp
      have hu : σ.app.user ≠ none := by
        intro hc
        rw [hc, NoAIjsx.handlePost_no_user] at hnp
        exact absurd hnp (by simp)
      exact ⟨h1, fun _ => hu⟩
    · exact ⟨h1, h2⟩
  | addDocSettled ok =>
    have hs : σ.step (.addDocSettled ok) =
        if σ.inFlight = 0 then σ
        else if ok then
          { app := { σ.app with view := .feed, feedType := .global },
            inFlight := σ.inFlight - 1 }
        else { σ with inFlight := σ.inFlight - 1 } := rfl
    rw [hs]
    split
    · exact ⟨h1, h2⟩
    · rename_i hpos
      have hu : σ.app.user ≠ none := h2 (Nat.pos_of_ne_zero hpos)
      split
      · exact ⟨fun _ => hu, fun _ => hu⟩
      · exact ⟨h1, fun _ => hu⟩

/-- Every sequence of events keeps both facts. -/
theorem NoAIjsx.Session.foldl_keeps_user (events : List NoAIjsx.AppEvent) :
    ∀ σ : NoAIjsx.Session,
      (σ.app.view ≠ .login → σ.app.user ≠ none) →
      (0 < σ.inFlight → σ.app.user ≠ none) →
      (((events.foldl NoAIjsx.Session.step σ).app.view ≠ .login →
          (events.foldl NoAIjsx.Session.step σ).app.user ≠ none) ∧
        (0 < (events.foldl NoAIjsx.Session.step σ).inFlight →
          (events.foldl NoAIjsx.Session.step σ).app.user ≠ none)) := by
  induction events with
  | nil => intro σ h1 h2; exact ⟨h1, h2⟩
  | cons e rest ih =>
    intro σ h1 h2
    obtain ⟨k1, k2⟩ := NoAIjsx.Session.step_keeps_user σ e h1 h2
    exact ih (σ.step e) k1 k2

/-- In every reachable session, outside the view 'login' there is a user. -/
theorem NoAIjsx.Session.run_view_user (saved : List String)
    (events : List NoAIjsx.AppEvent)
    (hv : (NoAIjsx.Session.run saved events).app.view ≠ .login) :
    (NoAIjsx.Session.run saved events).app.user ≠ none :=
  (NoAIjsx.Session.foldl_keeps_user events (NoAIjsx.Session.initial saved)
    (fun h => absurd rfl h) (fun h => absurd h (Nat.lt_irrefl 0))).1 hv

/-- The render throws only in the view 'feed' without a user. -/
theorem NoAIjsx.render_error_only_without_user (s : NoAIjsx.AppState) (now : Int)
    (h : NoAIjsx.render s now = .renderError) : s.view ≠ .login ∧ s.user = none := by
  unfold NoAIjsx.render at h
  split at h
  · exact absurd h (by simp)
  · split at h
    · exact absurd h (by simp)
    · exact absurd h (by simp)
    · exact absurd h (by simp)
    · rename_i hview
      rw [hview]
      refine ⟨by decide, ?_⟩
      cases hu : s.user with
      | none => rfl
      | some u =>
        rw [hu] at h
        exact absurd h (by simp)

/-- C22: in every state of `NoAI.jsx` reachable from the initial state (view 'login', no
user) through auth-state events, clicks on the view-changing controls and the other
events of a session, a view other than 'login' implies that a user is present; hence
the render never reads `user.uid` of a null user.  A state with the view 'feed' is
reached, for instance by signing in, saving a post, signing out and the post being
stored, and it still holds the user. -/
theorem C22_outside_login_there_is_a_user :
    (∀ (saved : List String) (events : List NoAIjsx.AppEvent),
      (NoAIjsx.Session.run saved events).app.view ≠ .login →
        (NoAIjsx.Session.run saved events).app.user ≠ none) ∧
    (∀ (saved : List String) (events : List NoAIjsx.AppEvent) (now : Int),
      NoAIjsx.render (NoAIjsx.Session.run saved events).app now ≠ .renderError) ∧
    (∀ saved : List String,
      (NoAIjsx.Session.initial saved).app.view = .login ∧
      (NoAIjsx.Session.initial saved).app.user = none) ∧
    ((NoAIjsx.Session.run [] NoAIjsx.sampleEvents).app.view = .feed ∧
      (NoAIjsx.Session.run [] NoAIjsx.sampleEvents).app.user = some NoAIjsx.demoUser) := by
  refine ⟨NoAIjsx.Session.run_view_user, ?_, fun saved => ⟨rfl, rfl⟩, by decide⟩
  intro saved events now herr
  obtain ⟨hv, hu⟩ := NoAIjsx.render_error_only_without_user _ now herr
  exact NoAIjsx.Session.run_view_user saved events hv hu

/-- C22 at a concrete input: after the sample session the view is 'feed' and the user is
present. -/
theorem C22_outside_login_there_is_a_user_witness :
    (NoAIjsx.Session.run [] NoAIjsx.sampleEvents).app.user ≠ none :=
  C22_outside_login_there_is_a_user.1 [] NoAIjsx.sampleEvents (by decide)

/-! ## Without a user nothing is written -/

/-- The handler `toggleFollow` has no guard of its own: applied to the state in which
`App` mounts it sets the follow list.  What keeps it from running without a user is
the render, which shows the follow buttons only on the main screen. -/
theorem NoAIjsx.toggleFollowStep_unguarded :
    (NoAIjsx.toggleFollowStep (NoAIjsx.AppState.initial []) "user_maya").1.following =
        ["user_maya"] ∧
      (NoAIjsx.toggleFollowStep (NoAIjsx.AppState.initial []) "user_maya").2 = [] := by
  refine ⟨by decide, rfl⟩

/-- In a reachable session without a user the view is 'login': `App` shows the loading
text or the login screen, not the main screen with the follow buttons, and a click on
a follow button, which does not exist, changes nothing. -/
theorem NoAIjsx.Session.no_user_no_follow (saved : List String)
    (events : List NoAIjsx.AppEvent) (dummyId : String)
    (hu : (NoAIjsx.Session.run saved events).app.user = none) :
    (NoAIjsx.Session.run saved events).app.view = .login ∧
      NoAIjsx.mainShown (NoAIjsx.Session.run saved events).app = false ∧
      (∀ now : Int,
        NoAIjsx.render (NoAIjsx.Session.run saved events).app now = .loading ∨
        NoAIjsx.render (NoAIjsx.Session.run saved events).app now = .login) ∧
      (NoAIjsx.Session.run saved events).step (.followClicked dummyId) =
        NoAIjsx.Session.run saved events := by
  have hv : (NoAIjsx.Session.run saved events).app.view = .login := by
    by_contra hne
    exact NoAIjsx.Session.run_view_user saved events hne hu
  have hm : NoAIjsx.mainShown (NoAIjsx.Session.run saved events).app = false := by
    unfold NoAIjsx.mainShown
    rw [hv]
    simp
  refine ⟨hv, hm, ?_, ?_⟩
  · intro now
    unfold NoAIjsx.render
    rw [hv]
    cases (NoAIjsx.Session.run saved events).app.isLoading with
    | true => exact Or.inl rfl
    | false => exact Or.inr rfl
  · have hs : (NoAIjsx.Session.run saved events).step (.followClicked dummyId) =
        if NoAIjsx.mainShown (NoAIjsx.Session.run saved events).app then
          { (NoAIjsx.Session.run saved events) with
            app := (NoAIjsx.toggleFollowStep (NoAIjsx.Session.run saved events).app dummyId).1 }
        else NoAIjsx.Session.run saved events := rfl
    rw [hs, hm]
    rfl

/-- C15: when the user identifier is absent, every write operation is disabled.  For
every state with no user the post and like handlers of both files send no write to the
store and change no state.  The follow handler of `NoAI.jsx` sends no write to the
store in any state, and it has no guard of its own: it is disabled by the render.  In
every state with no user that `App` reaches from mount, the view is 'login' and `App`
shows the loading text or the login screen, so no follow button exists, and a follow
click leaves the state as it is. -/
theorem C15_no_user_no_post_no_like :
    (∀ (s : NoAIjsx.AppState) (imageDataUrl : String) (addDocOk : Bool), s.user = none →
      NoAIjsx.handlePostStep s imageDataUrl addDocOk = (s, [])) ∧
    (∀ (s : NoAIjsx.AppState) (post : NoAIjsx.Post), s.user = none →
      NoAIjsx.toggleLikeStep s post = (s, [])) ∧
    (∀ (s : NoAIjs.AppState) (pick : Fin 3), NoAIjs.truthyId s.userId = false →
      NoAIjs.handlePostStep s pick = (s, [])) ∧
    (∀ (s : NoAIjs.AppState) (post : NoAIjs.Post), NoAIjs.truthyId s.userId = false →
      NoAIjs.handleLikeToggleStep s post = (s, [])) ∧
    (∀ (s : NoAIjsx.AppState) (dummyId : String),
      (NoAIjsx.toggleFollowStep s dummyId).2 = []) ∧
    (∀ (saved : List String) (events : List NoAIjsx.AppEvent) (dummyId : String),
      (NoAIjsx.Session.run saved events).app.user = none →
        (NoAIjsx.Session.run saved events).app.view = .login ∧
        NoAIjsx.mainShown (NoAIjsx.Session.run saved events).app = false ∧
        (∀ now : Int,
          NoAIjsx.render (NoAIjsx.Session.run saved events).app now = .loading ∨
          NoAIjsx.render (NoAIjsx.Session.run saved events).app now = .login) ∧
        (NoAIjsx.Session.run saved events).step (.followClicked dummyId) =
          NoAIjsx.Session.run saved events) := by
  refine ⟨?_, ?_, ?_, ?_, fun s dummyId => rfl, NoAIjsx.Session.no_user_no_follow⟩
  · intro s imageDataUrl addDocOk h
    unfold NoAIjsx.handlePostStep
    rw [h, NoAIjsx.handlePost_no_user]
  · intro s post h
    unfold NoAIjsx.toggleLikeStep
    rw [h, NoAIjsx.toggleLike_no_user]
  · intro s pick h
    unfold NoAIjs.handlePostStep
    rw [NoAIjs.handlePost_js_no_user s.db s.userId s.postCount pick h]
  · intro s post h
    unfold NoAIjs.handleLikeToggleStep
    rw [NoAIjs.handleLikeToggle_no_user s.db s.userId post h]

/-- C15 at concrete inputs: the initial states of both files, where no user is present,
with a store handle in place; and the session of `NoAI.jsx` in which Firebase is ready
and the auth listener has reported that nobody is signed in, where a click on the
follow button of 'user_maya' changes nothing. -/
theorem C15_no_user_no_post_no_like_witness :
    NoAIjsx.handlePostStep { (NoAIjsx.AppState.initial []) with db := some NoAIjsx.demoDb }
        "data:image/jpeg;base64,AAAA" true =
      ({ (NoAIjsx.AppState.initial []) with db := some NoAIjsx.demoDb }, []) ∧
    NoAIjsx.toggleLikeStep { (NoAIjsx.AppState.initial []) with db := some NoAIjsx.demoDb }
        NoAIjsx.resolvedPost =
      ({ (NoAIjsx.AppState.initial []) with db := some NoAIjsx.demoDb }, []) ∧
    NoAIjs.handlePostStep { NoAIjs.AppState.initial with db := some NoAIjsx.demoDb } 0 =
      ({ NoAIjs.AppState.initial with db := some NoAIjsx.demoDb }, []) ∧
    NoAIjs.handleLikeToggleStep { NoAIjs.AppState.initial with db := some NoAIjsx.demoDb }
        NoAIjs.samplePost =
      ({ NoAIjs.AppState.initial with db := some NoAIjsx.demoDb }, []) ∧
    (NoAIjsx.Session.run [] NoAIjsx.signedOutEvents).app.user = none ∧
    (NoAIjsx.Session.run [] NoAIjsx.signedOutEvents).step (.followClicked "user_maya") =
      NoAIjsx.Session.run [] NoAIjsx.signedOutEvents :=
  ⟨C15_no_user_no_post_no_like.1 _ _ true rfl,
   C15_no_user_no_post_no_like.2.1 _ NoAIjsx.resolvedPost rfl,
   C15_no_user_no_post_no_like.2.2.1 _ 0 rfl,
   C15_no_user_no_post_no_like.2.2.2.1 _ NoAIjs.samplePost rfl,
   rfl,
   (C15_no_user_no_post_no_like.2.2.2.2.2 [] NoAIjsx.signedOutEvents "user_maya" rfl).2.2.2⟩

/-! ## The overlay and the saved image have one size -/

/-- The two places compute the canvas size by the same expression. -/
theorem NoAIjsx.initCanvasSize_eq_handleSaveSize (w h : Nat) :
    NoAIjsx.initCanvasSize w h = NoAIjsx.handleSaveSize w h := rfl

/-- With an overlay of the initialised size, the saved canvas has the overlay's size and
each of its pixels is the overlay pixel at the same position over the filtered base
pixel at that position. -/
theorem NoAIjsx.handleSaveCanvas_aligned {α : Type} (R : Renderer α)
    (s : NoAIjsx.EditorState α) (img : SourceImage) (overlay out : Layer)
    (himg : s.imageSrc = some img) (hov : s.canvas = some overlay)
    (hw : overlay.width = (NoAIjsx.initCanvasSize img.width img.height).1)
    (hh : overlay.height = (NoAIjsx.initCanvasSize img.width img.height).2)
    (hout : NoAIjsx.handleSaveCanvas R s = .ok (some out)) :
    out.width = overlay.width ∧ out.height = overlay.height ∧
      ∀ x y, x < out.width → y < out.height →
        out.px x y = (overlay.px x y).over ((NoAIjsx.filteredBase R img s.filter).px x y) := by
  have h := NoAIjsx.handleSaveCanvas_eq R s img himg
  rw [hov, hout] at h
  by_cases hz : overlay.width = 0 ∨ overlay.height = 0
  · simp only [hz, if_true] at h
    exact absurd h (by simp)
  simp only [hz, if_false, Except.ok.injEq, Option.some.injEq] at h
  have hbw : (NoAIjsx.filteredBase R img s.filter).width =
      (NoAIjsx.handleSaveSize img.width img.height).1 := rfl
  have hbh : (NoAIjsx.filteredBase R img s.filter).height =
      (NoAIjsx.handleSaveSize img.width img.height).2 := rfl
  have ow : out.width = overlay.width := by
    rw [h, hw]
    exact hbw
  have oh : out.height = overlay.height := by
    rw [h, hh]
    exact hbh
  refine ⟨ow, oh, ?_⟩
  intro x y hx hy
  rw [ow] at hx
  rw [oh] at hy
  rw [h]
  show (if x < overlay.width ∧ y < overlay.height then _ else _) = _
  rw [if_pos ⟨hx, hy⟩]

/-- A stroke that keeps the size of the bitmap keeps the size of the overlay canvas
through `draw`. -/
theorem NoAIjsx.draw_keeps_canvas_size {α : Type} [Sub α] [Mul α] [Div α] [NatCast α]
    (R : Renderer α) (s s1 : NoAIjsx.EditorState α) (e : PointerInput α)
    (hR : ∀ path l, (R.strokePath path l).width = l.width ∧
      (R.strokePath path l).height = l.height)
    (h : NoAIjsx.draw R s e = .ok s1) :
    s1.canvas.map (fun c => (c.width, c.height)) =
      s.canvas.map (fun c => (c.width, c.height)) := by
  unfold NoAIjsx.draw at h
  split at h
  · simp only [Except.ok.injEq] at h
    rw [← h]
  · split at h
    · exact absurd h (by simp)
    · split at h
      · exact absurd h (by simp)
      · simp only [Except.ok.injEq] at h
        rw [← h]
        dsimp only
        split
        · cases s.canvas with
          | none => rfl
          | some c =>
            simp only [Option.map_some', Option.some.injEq, Prod.mk.injEq]
            exact hR _ c
        · rfl

/-- After an image is loaded the overlay canvas has the dimensions `handleSave` gives
its output canvas, and when they are not zero the save succeeds with a canvas of that
size. -/
theorem NoAIjsx.loadImage_overlay_size {α : Type} (R : Renderer α)
    (s0 : NoAIjsx.EditorState α) (img : SourceImage) :
    ∃ overlay, (NoAIjsx.loadImage s0 img).canvas = some overlay ∧
      overlay.width = (NoAIjsx.handleSaveSize img.width img.height).1 ∧
      overlay.height = (NoAIjsx.handleSaveSize img.width img.height).2 ∧
      (0 < overlay.width → 0 < overlay.height →
        ∃ out, NoAIjsx.handleSaveCanvas R (NoAIjsx.loadImage s0 img) = .ok (some out) ∧
          out.width = overlay.width ∧ out.height = overlay.height) := by
  have himg : (NoAIjsx.loadImage s0 img).imageSrc = some img := by rw [NoAIjsx.loadImage_eq]
  have hov : (NoAIjsx.loadImage s0 img).canvas =
      some (Layer.blank (NoAIjsx.initCanvasSize img.width img.height).1
        (NoAIjsx.initCanvasSize img.width img.height).2) := by rw [NoAIjsx.loadImage_eq]
  refine ⟨_, hov, rfl, rfl, fun hw hh => ?_⟩
  exact ⟨_, NoAIjsx.handleSaveCanvas_of_area R (NoAIjsx.loadImage s0 img) img _ himg hov hw hh,
    rfl, rfl⟩

/-- C23: for every source image size the canvas dimensions computed when the overlay is
initialised equal those `handleSave` computes for its output.  So after an image is
loaded the overlay has the dimensions of the output canvas, and a save that draws it,
as every save of an overlay with area does, gives a canvas of the same size; with an
overlay of that size every pixel of the saved canvas is the overlay pixel at the same
position composited over the filtered base pixel at that position, with no scaling and
no offset; and drawing with a stroke that keeps the bitmap size keeps the overlay
size. -/
theorem C23_overlay_and_output_same_size :
    (∀ w h : Nat, NoAIjsx.initCanvasSize w h = NoAIjsx.handleSaveSize w h) ∧
    (∀ (α : Type) (R : Renderer α) (s0 : NoAIjsx.EditorState α) (img : SourceImage),
      ∃ overlay, (NoAIjsx.loadImage s0 img).canvas = some overlay ∧
        overlay.width = (NoAIjsx.handleSaveSize img.width img.height).1 ∧
        overlay.height = (NoAIjsx.handleSaveSize img.width img.height).2 ∧
        (0 < overlay.width → 0 < overlay.height →
          ∃ out, NoAIjsx.handleSaveCanvas R (NoAIjsx.loadImage s0 img) = .ok (some out) ∧
            out.width = overlay.width ∧ out.height = overlay.height)) ∧
    (∀ (α : Type) (R : Renderer α) (s : NoAIjsx.EditorState α) (img : SourceImage)
        (overlay out : Layer),
      s.imageSrc = some img → s.canvas = some overlay →
      overlay.width = (NoAIjsx.initCanvasSize img.width img.height).1 →
      overlay.height = (NoAIjsx.initCanvasSize img.width img.height).2 →
      NoAIjsx.handleSaveCanvas R s = .ok (some out) →
        out.width = overlay.width ∧ out.height = overlay.height ∧
        ∀ x y, x < out.width → y < out.height →
          out.px x y =
            (overlay.px x y).over ((NoAIjsx.filteredBase R img s.filter).px x y)) ∧
    (∀ (α : Type) [Sub α] [Mul α] [Div α] [NatCast α] (R : Renderer α)
        (s s1 : NoAIjsx.EditorState α) (e : PointerInput α),
      (∀ path l, (R.strokePath path l).width = l.width ∧
        (R.strokePath path l).height = l.height) →
      NoAIjsx.draw R s e = .ok s1 →
        s1.canvas.map (fun c => (c.width, c.height)) =
          s.canvas.map (fun c => (c.width, c.height))) :=
  ⟨NoAIjsx.initCanvasSize_eq_handleSaveSize,
    fun α R s0 img => NoAIjsx.loadImage_overlay_size R s0 img,
    fun α R s img overlay out => NoAIjsx.handleSaveCanvas_aligned R s img overlay out,
    fun α _ _ _ _ R s s1 e => NoAIjsx.draw_keeps_canvas_size R s s1 e⟩

/-- C23 at a concrete input: the loaded editor, saved with the sample renderer, whose
overlay is the blank canvas of the initialised size. -/
theorem C23_overlay_and_output_same_size_witness :
    ∃ out, NoAIjsx.handleSaveCanvas NoAIjsx.sampleRenderer NoAIjsx.loadedEditor =
        .ok (some out) ∧
      out.width = (Layer.blank (NoAIjsx.initCanvasSize 1000 500).1
        (NoAIjsx.initCanvasSize 1000 500).2).width ∧
      out.height = (Layer.blank (NoAIjsx.initCanvasSize 1000 500).1
        (NoAIjsx.initCanvasSize 1000 500).2).height ∧
      out.width = 800 ∧ out.height = 400 :=
  ⟨_, NoAIjsx.handleSaveCanvas_of_area NoAIjsx.sampleRenderer NoAIjsx.loadedEditor
        NoAIjsx.whiteImage _ rfl rfl (by decide) (by decide),
    (C23_overlay_and_output_same_size.2.2.1 ℚ NoAIjsx.sampleRenderer NoAIjsx.loadedEditor
      NoAIjsx.whiteImage _ _ rfl rfl rfl rfl
      (NoAIjsx.handleSaveCanvas_of_area NoAIjsx.sampleRenderer NoAIjsx.loadedEditor
        NoAIjsx.whiteImage _ rfl rfl (by decide) (by decide))).1,
    (C23_overlay_and_output_same_size.2.2.1 ℚ NoAIjsx.sampleRenderer NoAIjsx.loadedEditor
      NoAIjsx.whiteImage _ _ rfl rfl rfl rfl
      (NoAIjsx.handleSaveCanvas_of_area NoAIjsx.sampleRenderer NoAIjsx.loadedEditor
        NoAIjsx.whiteImage _ rfl rfl (by decide) (by decide))).2.1,
    by decide, by decide⟩

/-! ## The follow toggle -/

theorem NoAIjsx.toggleFollow_of_mem (prev : List String) (dummyId : String)
    (h : dummyId ∈ prev) :
    NoAIjsx.toggleFollow prev dummyId = prev.filter (fun id => id != dummyId) := by
  unfold NoAIjsx.toggleFollow
  simp only [List.elem_eq_mem, decide_eq_true_eq, h, if_true]

theorem NoAIjsx.toggleFollow_of_not_mem (prev : List String) (dummyId : String)
    (h : dummyId ∉ prev) : NoAIjsx.toggleFollow prev dummyId = prev ++ [dummyId] := by
  unfold NoAIjsx.toggleFollow
  simp only [List.elem_eq_mem, decide_eq_true_eq, h, if_false]

/-- After a toggle the id is a member exactly when it was not one before, and every
other id is a member exactly when it was one before. -/
theorem NoAIjsx.mem_toggleFollow (prev : List String) (dummyId x : String) :
    x ∈ NoAIjsx.toggleFollow prev dummyId ↔
      (x = dummyId ∧ dummyId ∉ prev) ∨ (x ≠ dummyId ∧ x ∈ prev) := by
  by_cases h : dummyId ∈ prev
  · rw [NoAIjsx.toggleFollow_of_mem prev dummyId h, List.mem_filter]
    constructor
    · rintro ⟨hx, hne⟩
      right
      exact ⟨by simpa using hne, hx⟩
    · rintro (⟨_, hn⟩ | ⟨hne, hx⟩)
      · exact absurd h hn
      · exact ⟨hx, by simpa using hne⟩
  · rw [NoAIjsx.toggleFollow_of_not_mem prev dummyId h, List.mem_append, List.mem_singleton]
    constructor
    · rintro (hx | hx)
      · right
        exact ⟨fun hc => h (hc ▸ hx), hx⟩
      · left
        exact ⟨hx, h⟩
    · rintro (⟨hx, _⟩ | ⟨_, hx⟩)
      · right; exact hx
      · left; exact hx

theorem NoAIjsx.toggleFollow_nodup (prev : List String) (dummyId : String)
    (h : prev.Nodup) : (NoAIjsx.toggleFollow prev dummyId).Nodup := by
  by_cases hm : dummyId ∈ prev
  · rw [NoAIjsx.toggleFollow_of_mem prev dummyId hm]
    exact filter_ne_nodup prev dummyId h
  · rw [NoAIjsx.toggleFollow_of_not_mem prev dummyId hm]
    exact append_singleton_nodup prev dummyId h hm

/-- Toggling the same id twice gives a list with the members of the original. -/
theorem NoAIjsx.mem_toggleFollow_twice (prev : List String) (dummyId x : String) :
    x ∈ NoAIjsx.toggleFollow (NoAIjsx.toggleFollow prev dummyId) dummyId ↔ x ∈ prev := by
  rw [NoAIjsx.mem_toggleFollow, NoAIjsx.mem_toggleFollow, NoAIjsx.mem_toggleFollow]
  by_cases hx : x = dummyId
  · subst hx
    by_cases hp : x ∈ prev <;> simp [hp]
  · by_cases hp : x ∈ prev <;> simp [hx, hp]

/-- C24: for every duplicate-free follow list and every author id, `toggleFollow`
removes the id when it is followed and appends it otherwise; the result is
duplicate-free, and toggling the same id twice returns a duplicate-free follow list
with the same members as the original. -/
theorem C24_toggleFollow (prev : List String) (dummyId : String) (h : prev.Nodup) :
    (dummyId ∈ prev →
      NoAIjsx.toggleFollow prev dummyId = prev.filter (fun id => id != dummyId) ∧
      dummyId ∉ NoAIjsx.toggleFollow prev dummyId) ∧
    (dummyId ∉ prev → NoAIjsx.toggleFollow prev dummyId = prev ++ [dummyId]) ∧
    (NoAIjsx.toggleFollow prev dummyId).Nodup ∧
    (NoAIjsx.toggleFollow (NoAIjsx.toggleFollow prev dummyId) dummyId).Nodup ∧
    (∀ x, x ∈ NoAIjsx.toggleFollow (NoAIjsx.toggleFollow prev dummyId) dummyId ↔ x ∈ prev) ∧
    (NoAIjsx.toggleFollow (NoAIjsx.toggleFollow prev dummyId) dummyId).Perm prev := by
  have hn1 := NoAIjsx.toggleFollow_nodup prev dummyId h
  have hn2 := NoAIjsx.toggleFollow_nodup _ dummyId hn1
  refine ⟨?_, NoAIjsx.toggleFollow_of_not_mem prev dummyId, hn1, hn2,
    NoAIjsx.mem_toggleFollow_twice prev dummyId, ?_⟩
  · intro hm
    refine ⟨NoAIjsx.toggleFollow_of_mem prev dummyId hm, ?_⟩
    rw [NoAIjsx.mem_toggleFollow]
    rintro (⟨_, hn⟩ | ⟨hne, _⟩)
    · exact hn hm
    · exact hne rfl
  · rw [List.perm_ext_iff_of_nodup hn2 h]
    exact NoAIjsx.mem_toggleFollow_twice prev dummyId

/-- C24 at a concrete input: following user_liam while user_maya is followed, and the
double toggle of user_maya. -/
theorem C24_toggleFollow_witness :
    NoAIjsx.toggleFollow ["user_maya"] "user_liam" = ["user_maya", "user_liam"] ∧
      NoAIjsx.toggleFollow ["user_maya", "user_liam"] "user_maya" = ["user_liam"] ∧
      (NoAIjsx.toggleFollow (NoAIjsx.toggleFollow ["user_maya", "user_liam"] "user_maya")
        "user_maya").Perm ["user_maya", "user_liam"] :=
  ⟨(C24_toggleFollow ["user_maya"] "user_liam" (by decide)).2.1 (by decide),
   ((C24_toggleFollow ["user_maya", "user_liam"] "user_maya" (by decide)).1 (by decide)).1,
   (C24_toggleFollow ["user_maya", "user_liam"] "user_maya" (by decide)).2.2.2.2.2⟩
